import Mathlib

/-!
Verification of the Candidate Discovery & Ranking Engine of the
Coldemail-agent repository.  The Python sources are shallowly embedded:
pure helpers become Lean functions over `List Char` / `String`
(structural recursion only, so that concrete inputs evaluate in the
kernel), JSON values become the inductive `PyVal`, and every network or
language-model call becomes an explicit outcome parameter
(`PyOutcome`), mirroring the exception/return structure of the source.
-/

namespace ColdEmail

/-- Outcome of an impure Python call: it either raised an exception or
returned a value.  Used to embed network and LLM calls. -/
inductive PyOutcome (α : Type) where
  | exn : PyOutcome α
  | ok : α → PyOutcome α
deriving DecidableEq, Repr

/-- Embedded Python/JSON value (as produced by `json.loads`).  JSON
numbers are modelled as integers (the engine only consumes integral
scores); floats are out of scope. -/
inductive PyVal where
  | none : PyVal
  | bool : Bool → PyVal
  | int : Int → PyVal
  | str : String → PyVal
  | list : List PyVal → PyVal
  | dict : List (String × PyVal) → PyVal

/-- Python truthiness (`bool(v)`). -/
def pyTruthy : PyVal → Bool
  | .none => false
  | .bool b => b
  | .int n => n ≠ 0
  | .str s => s ≠ ""
  | .list xs => ¬ xs.isEmpty
  | .dict kvs => ¬ kvs.isEmpty

/-- Python `str(v)` for the scalar values the engine coerces; container
reprs are abbreviated (no claim depends on them). -/
def pyStr : PyVal → String
  | .none => "None"
  | .bool b => if b then "True" else "False"
  | .int n => toString n
  | .str s => s
  | .list _ => "[...]"
  | .dict _ => "{...}"

/-- `d.get(key, default)` on a JSON object (keys assumed unique, as in
parsed JSON). -/
def pyDictGet (kvs : List (String × PyVal)) (key : String) (dflt : PyVal) : PyVal :=
  match kvs.find? (fun kv => kv.1 == key) with
  | some kv => kv.2
  | Option.none => dflt

/-- Characters stripped by Python `str.strip()`. -/
def chIsWs (c : Char) : Bool :=
  c == ' ' || c == '\t' || c == '\n' || c == '\r' || c == '\x0b' || c == '\x0c'

/-- `str.strip()` on a character list. -/
def listStrip (cs : List Char) : List Char :=
  ((cs.dropWhile chIsWs).reverse.dropWhile chIsWs).reverse

/-- `str.strip()`. -/
def pyStrip (s : String) : String := ⟨listStrip s.data⟩

/-- `str.lower()` (ASCII). -/
def pyLower (s : String) : String := ⟨s.data.map Char.toLower⟩

/-- Substring containment on character lists (`sub in s`). -/
def listContainsSub (sub : List Char) : List Char → Bool
  | [] => sub.isEmpty
  | c :: cs => sub.isPrefixOf (c :: cs) || listContainsSub sub cs

/-- Python `sub in s`. -/
def pyContains (sub s : String) : Bool := listContainsSub sub.data s.data

/-- Python `s.startswith(p)`. -/
def pyStartsWith (p s : String) : Bool := p.data.isPrefixOf s.data

/-- Split at the first occurrence of `sep`: returns the part before and
the part after.  `none` when `sep` does not occur. -/
def splitFirst (sep : List Char) : List Char → Option (List Char × List Char)
  | [] => if sep.isEmpty then some ([], []) else Option.none
  | c :: cs =>
    if sep.isPrefixOf (c :: cs) then some ([], (c :: cs).drop sep.length)
    else
      match splitFirst sep cs with
      | some (pre, post) => some (c :: pre, post)
      | Option.none => Option.none

/-- Number of parts of Python `s.split(sep)` is 2 iff `sep` occurs
exactly once in the left-to-right non-overlapping scan; this helper
returns the two parts in that case. -/
def splitInTwo (sep : List Char) (cs : List Char) : Option (List Char × List Char) :=
  match splitFirst sep cs with
  | some (pre, post) => if listContainsSub sep post then Option.none else some (pre, post)
  | Option.none => Option.none

/-- `s.rstrip("/")`. -/
def rstripSlash (cs : List Char) : List Char :=
  (cs.reverse.dropWhile (fun c => c == '/')).reverse

/-- Deny-list of placeholder profile-slug patterns
(`_validate_linkedin_url`, email_agent.py). -/
def fakePatterns : List String :=
  ["example", "sample", "test", "fake", "placeholder", "xxx", "yyy", "abc123", "user123"]

/-- Accepted LinkedIn URL prefixes (`_validate_linkedin_url`). -/
def linkedinPrefixes : List String :=
  ["https://www.linkedin.com/in/", "https://linkedin.com/in/",
   "https://www.linkedin.com/company/", "https://linkedin.com/company/"]

/-- Slug extraction: `parts[1].split("/")[0].split("?")[0]` after
`url.rstrip("/").split(sep)` produced exactly two parts. -/
def linkedinSlug (sep : List Char) (url : String) : Option String :=
  match splitInTwo sep (rstripSlash url.data) with
  | some (_, post) => some ⟨(post.takeWhile (fun c => c ≠ '/')).takeWhile (fun c => c ≠ '?')⟩
  | Option.none => Option.none

/-- Slug selection of `_validate_linkedin_url`: the `/in/` branch, the
`/company/` branch, or failure. -/
def linkedinSlugOf (url : String) : Option String :=
  if pyContains "/in/" url then linkedinSlug "/in/".data url
  else if pyContains "/company/" url then linkedinSlug "/company/".data url
  else Option.none

/-- Embedding of `_validate_linkedin_url` (email_agent.py, lines
209-268).  Format-only validation; returns the stripped URL when it
looks legitimate, `none` otherwise. -/
def validateLinkedinUrl (url? : Option String) : Option String :=
  match url? with
  | Option.none => Option.none
  | some url0 =>
    if url0 = "" then Option.none
    else
      let url := pyStrip url0
      if ¬ linkedinPrefixes.any (fun p => pyStartsWith p url) then Option.none
      else
        match linkedinSlugOf url with
        | Option.none => Option.none
        | some slug =>
          if slug = "" ∨ slug.length < 2 then Option.none
          else if fakePatterns.any (fun p => pyContains p (pyLower slug)) then Option.none
          else some url

/-- Digit-only check for Python `int(str)` parsing. -/
def allDigits (cs : List Char) : Bool := ¬ cs.isEmpty && cs.all Char.isDigit

/-- Value of a digit string. -/
def natOfDigits (cs : List Char) : Nat := cs.foldl (fun a c => a * 10 + (c.toNat - 48)) 0

/-- Python `int(s)` on a string: optional sign and digits after
stripping whitespace (digit-group underscores are not modelled). -/
def pyIntOfStr (s : String) : Option Int :=
  match listStrip s.data with
  | '+' :: rest => if allDigits rest then some (natOfDigits rest : Int) else Option.none
  | '-' :: rest => if allDigits rest then some (-(natOfDigits rest : Int)) else Option.none
  | t => if allDigits t then some (natOfDigits t : Int) else Option.none

/-- Embedding of `_safe_int` (email_agent.py, lines 1154-1158):
`int(value)` with `TypeError`/`ValueError` mapped to the default. -/
def pySafeInt (v : PyVal) (dflt : Int) : Int :=
  match v with
  | .int n => n
  | .bool b => if b then 1 else 0
  | .str s => (pyIntOfStr s).getD dflt
  | _ => dflt

/-- Part of `cs` after the last occurrence of `sep` (Python
`s.split(sep)[-1]`), fuel-bounded so it evaluates in the kernel. -/
def afterLastAux (sep : List Char) : Nat → List Char → List Char
  | 0, cs => cs
  | Nat.succ n, cs =>
    match splitFirst sep cs with
    | some (_, post) => afterLastAux sep n post
    | Option.none => cs

/-- Python `s.split(sep)[-1]` for non-empty `sep`. -/
def afterLast (sep cs : List Char) : List Char := afterLastAux sep cs.length cs

/-- Upper-case hex digit. -/
def hexDigit (n : Nat) : Char := "0123456789ABCDEF".data.getD n '0'

/-- ASCII model of `urllib.parse.quote` (default safe character `/`). -/
def quoteChar (c : Char) : List Char :=
  if c.isAlphanum || c == '_' || c == '.' || c == '-' || c == '~' || c == '/' then [c]
  else ['%', hexDigit (c.toNat / 16 % 16), hexDigit (c.toNat % 16)]

/-- `urllib.parse.quote(s)` (ASCII model). -/
def urlQuote (s : String) : String := ⟨s.data.flatMap quoteChar⟩

/-- Embedding of `_generate_linkedin_search_url` (email_agent.py, lines
1161-1178). -/
def generateLinkedinSearchUrl (name company : String) : String :=
  let query := if company ≠ "" then name ++ " " ++ company else name
  "https://www.linkedin.com/search/results/people/?keywords=" ++ urlQuote query

/-- A normalized recommendation record, the dict built by
`_normalize_recommendations` / `_search_linkedin_via_serpapi`.  The
final synthetic fallback dict carries no `linkedin_url` key, hence the
`Option`. -/
structure TargetRec where
  name : String
  position : String
  field : String
  linkedin_url : Option String
  match_score : Int
  match_reason : String
  common_interests : String
  evidence : List String
  sources : List String
  uncertainty : String
deriving DecidableEq, Repr

/-- `str(item.get(key, "") or "").strip()`, the coercion
`_normalize_recommendations` applies to its scalar fields. -/
def pyStrField (kvs : List (String × PyVal)) (key : String) : String :=
  let v := pyDictGet kvs key (.str "")
  pyStrip (if pyTruthy v then pyStr v else "")

/-- String-list extraction for the `sources` / `evidence` fields of
`_normalize_recommendations` (lines 1684-1696). -/
def strListOf (v : PyVal) : List String :=
  match v with
  | .list xs =>
    xs.filterMap fun x =>
      match x with
      | .str s => if pyStrip s ≠ "" then some (pyStrip s) else Option.none
      | _ => Option.none
  | .str s => if pyStrip s ≠ "" then [pyStrip s] else []
  | _ => []

/-- Company extraction from a position string
(`_normalize_recommendations`, lines 1712-1718): the text after the
last occurrence of the first matching keyword. -/
def companyOf (position : String) : String :=
  if position = "" then ""
  else if pyContains "at " position then pyStrip ⟨afterLast "at ".data position.data⟩
  else if pyContains "@ " position then pyStrip ⟨afterLast "@ ".data position.data⟩
  else if pyContains ", " position then pyStrip ⟨afterLast ", ".data position.data⟩
  else ""

/-- Normalization of one raw recommendation item
(`_normalize_recommendations` loop body, email_agent.py lines
1667-1744).  `lookup` is the impure `_lookup_linkedin_via_serpapi`
call, taking name, company and field. -/
def normalizeItem (lookup : String → String → String → Option String)
    (item : PyVal) : Option TargetRec :=
  match item with
  | .dict kvs =>
    let name := pyStrField kvs "name"
    if name = "" then Option.none
    else
      let position := pyStrField kvs "position"
      let field := pyStrField kvs "field"
      let match_reason := pyStrField kvs "match_reason"
      let common_interests := pyStrField kvs "common_interests"
      let uncertainty0 := pyStrField kvs "uncertainty"
      let uncertainty := if uncertainty0 = "" then "medium" else uncertainty0
      let match_score := max 0 (min (pySafeInt (pyDictGet kvs "match_score" (.int 0)) 0) 100)
      let sources := strListOf (pyDictGet kvs "sources" (.list []))
      let evidence := strListOf (pyDictGet kvs "evidence" (.list []))
      let rawUrl0 := pyStrField kvs "linkedin_url"
      let rawUrl :=
        if rawUrl0 = "" then
          (sources.find? (fun src => pyContains "linkedin.com/in/" (pyLower src))).getD ""
        else rawUrl0
      let company := companyOf position
      let url2 :=
        match validateLinkedinUrl (some rawUrl) with
        | some u => some u
        | Option.none =>
          match lookup name company field with
          | some su => if su ≠ "" then some su else Option.none
          | Option.none => Option.none
      let linkedin_url :=
        match url2 with
        | some u => u
        | Option.none => generateLinkedinSearchUrl name company
      some { name := name
             position := if position ≠ "" then position else field
             field := if field ≠ "" then field else position
             linkedin_url := some linkedin_url
             match_score := if match_score = 0 then 70 else match_score
             match_reason := match_reason
             common_interests := common_interests
             evidence := evidence
             sources := sources
             uncertainty := uncertainty }
  | _ => Option.none

/-- The raw item list of a parsed `recommendations` value (non-lists
normalize to nothing, line 1663). -/
def itemsOf : PyVal → List PyVal
  | .list xs => xs
  | _ => []

/-- Embedding of `_normalize_recommendations` (email_agent.py, lines
1652-1746). -/
def normalizeRecommendations (lookup : String → String → String → Option String)
    (items : PyVal) : List TargetRec :=
  (itemsOf items).filterMap (normalizeItem lookup)

/-- The synthetic fallback record of `find_target_recommendations`
(email_agent.py, lines 2070-2082). -/
def syntheticFallbackRec (field : String) : TargetRec :=
  { name := "Contact in " ++ field
    position := "Professional"
    field := field
    linkedin_url := Option.none
    match_score := 70
    match_reason := "Relevant to your field"
    common_interests := "Shared interest in " ++ field
    evidence := []
    sources := []
    uncertainty := "high: no sources available" }

/-- A crawled advisor record, the dict produced by
`AdvisorProfile.to_dict()` (advisor_crawler.py); field shapes follow
the dataclass declaration. -/
structure CrawlRec where
  name : String
  title : String
  mentor_type : String
  department : String
  research : String
  email : String
  homepage_url : String
  source_url : String
  school : String
  college : String
  education : List String
  experiences : List String
  skills : List String
  projects : List String
deriving DecidableEq, Repr

/-- Non-blank test used by the completeness score
(`val and str(val).strip()`). -/
def nonBlank (s : String) : Bool := pyStrip s ≠ ""

/-- List counterpart: `any(str(x).strip() for x in val)`. -/
def anyNonBlank (xs : List String) : Bool := xs.any nonBlank

/-- Indicator. -/
def b2n (b : Bool) : Nat := if b then 1 else 0

/-- Embedding of the completeness score `_score` inside
`crawl_advisors` (advisor_crawler.py, lines 443-453): count of
non-empty fields among title, mentor_type, department, research,
email, education, experiences, skills, projects. -/
def crawlScore (r : CrawlRec) : Nat :=
  b2n (nonBlank r.title) + b2n (nonBlank r.mentor_type) + b2n (nonBlank r.department) +
    b2n (nonBlank r.research) + b2n (nonBlank r.email) + b2n (anyNonBlank r.education) +
    b2n (anyNonBlank r.experiences) + b2n (anyNonBlank r.skills) +
    b2n (anyNonBlank r.projects)

/-- Identity key of the dedup pass:
`r.get("source_url") or (r.get("name"), r.get("email"))`. -/
inductive RecIdKey where
  | url : String → RecIdKey
  | pair : String → String → RecIdKey
deriving DecidableEq, Repr

/-- Key computation (advisor_crawler.py, line 458). -/
def recIdKey (r : CrawlRec) : RecIdKey :=
  if r.source_url ≠ "" then .url r.source_url else .pair r.name r.email

/-- Replace the first record sharing the new record's key when the new
record scores strictly higher.  Mirrors the `key_to_index` update of
`crawl_advisors` (lines 455-465): the stored index is the position of
the unique record with that key, i.e. the first one. -/
def replaceFirstByKey (r : CrawlRec) : List CrawlRec → List CrawlRec
  | [] => []
  | x :: xs =>
    if recIdKey x = recIdKey r then
      (if crawlScore x < crawlScore r then r else x) :: xs
    else x :: replaceFirstByKey r xs

/-- One iteration of the dedup loop (advisor_crawler.py, lines
457-465). -/
def dedupStep (acc : List CrawlRec) (r : CrawlRec) : List CrawlRec :=
  if acc.any (fun x => decide (recIdKey x = recIdKey r)) then replaceFirstByKey r acc
  else acc ++ [r]

/-- Embedding of the dedup-by-identity-key pass of `crawl_advisors`. -/
def dedupByKey (l : List CrawlRec) : List CrawlRec := l.foldl dedupStep []

/-- Records of `l` sharing key `k`. -/
def groupOf (l : List CrawlRec) (k : RecIdKey) : List CrawlRec :=
  l.filter (fun x => decide (recIdKey x = k))

/-- Highest completeness score within a group. -/
def maxScore (g : List CrawlRec) : Nat := g.foldl (fun m x => max m (crawlScore x)) 0

/-- First record of a group attaining the group's highest score. -/
def firstMax (g : List CrawlRec) : Option CrawlRec :=
  g.find? (fun x => decide (crawlScore x = maxScore g))

/-- Scenario record: shares its source URL with `jdoeWithEdu` but has
an empty education list. -/
def jdoeNoEdu : CrawlRec :=
  { name := "J Doe", title := "", mentor_type := "", department := "", research := ""
    email := "", homepage_url := "", source_url := "https://u.edu/people/jdoe"
    school := "", college := "", education := [], experiences := [], skills := []
    projects := [] }

/-- Scenario record: same source URL, education `["PhD MIT"]`. -/
def jdoeWithEdu : CrawlRec :=
  { name := "J Doe", title := "", mentor_type := "", department := "", research := ""
    email := "", homepage_url := "", source_url := "https://u.edu/people/jdoe"
    school := "", college := "", education := ["PhD MIT"], experiences := [], skills := []
    projects := [] }

/-- Invariant of the dedup fold: after processing the prefix `pre`,
the accumulator holds pairwise distinct keys, each accumulated record
is the first highest-scoring record of its key group in `pre`, and
every key occurring in `pre` is represented. -/
def DedupInv (pre acc : List CrawlRec) : Prop :=
  (acc.map recIdKey).Nodup ∧
  (∀ r ∈ acc, firstMax (groupOf pre (recIdKey r)) = some r) ∧
  (∀ k, groupOf pre k ≠ [] → ∃ x, x ∈ acc ∧ recIdKey x = k)

/-- Python `s[:n]`. -/
def pyTake (n : Nat) (s : String) : String := ⟨s.data.take n⟩

/-- Character class `[A-Za-z0-9._%+-]` (email local part). -/
def isEmailLocalChar (c : Char) : Bool :=
  c.isAlpha || c.isDigit || c == '.' || c == '_' || c == '%' || c == '+' || c == '-'

/-- Character class `[A-Za-z0-9.-]` (email domain part). -/
def isEmailDomainChar (c : Char) : Bool :=
  c.isAlpha || c.isDigit || c == '.' || c == '-'

/-- Greedy `p+` followed by continuation `k` (backtracks from the
longest run, as `re` does); returns the suffix after a successful
match. -/
def plusThenG (p : Char → Bool) (k : List Char → Option (List Char)) :
    List Char → Option (List Char)
  | [] => Option.none
  | c :: cs =>
    if p c then
      match plusThenG p k cs with
      | some r => some r
      | Option.none => k cs
    else Option.none

/-- Match of the heuristic-fallback email pattern of `llm_extract`
(advisor_crawler.py, line 199) at the head of `cs`.  The pattern is the
raw string `[A-Za-z0-9._%+-]+@[A-Za-z0-9.-]+\\.[A-Za-z]{2,}`, whose
`\\` is a regex escape for one literal backslash character, followed by
`.` (any character but newline) and two or more letters. -/
def buggyEmailMatchHere (cs : List Char) : Option (List Char) :=
  plusThenG isEmailLocalChar (fun r1 =>
    match r1 with
    | '@' :: r2 =>
      plusThenG isEmailDomainChar (fun r3 =>
        match r3 with
        | '\\' :: d :: r4 =>
          if d == '\n' then Option.none
          else
            match r4 with
            | l1 :: l2 :: r5 =>
              if l1.isAlpha && l2.isAlpha then some (r5.dropWhile Char.isAlpha)
              else Option.none
            | _ => Option.none
        | _ => Option.none) r2
    | _ => Option.none) cs

/-- Leftmost search for the pattern; returns the matched text
(`group(0)`). -/
def buggyEmailSearchFrom : List Char → Option (List Char)
  | [] => Option.none
  | c :: cs =>
    match buggyEmailMatchHere (c :: cs) with
    | some suffix => some ((c :: cs).take ((c :: cs).length - suffix.length))
    | Option.none => buggyEmailSearchFrom cs

/-- `re.search(pattern, text)` for the fallback email pattern: the
matched text, or the empty string when there is no match (the code uses
`email_match.group(0) if email_match else ""`). -/
def reSearchBuggyEmail (s : String) : String :=
  match buggyEmailSearchFrom s.data with
  | some m => ⟨m⟩
  | Option.none => ""

/-- The `AdvisorProfile` dataclass (advisor_crawler.py, lines 32-61).
Scalar fields hold whatever value the parsed JSON supplied (the
dataclass does not coerce); the four collection fields are lists after
`__post_init__`. -/
structure AdvisorProfile where
  name : PyVal
  title : PyVal
  mentor_type : PyVal
  department : PyVal
  research : PyVal
  email : PyVal
  homepage_url : PyVal
  source_url : PyVal
  school : PyVal
  college : PyVal
  education : List PyVal
  experiences : List PyVal
  skills : List PyVal
  projects : List PyVal

/-- Field names accepted by `AdvisorProfile(**obj)`; any other key
raises `TypeError`. -/
def advisorFieldNames : List String :=
  ["name", "title", "mentor_type", "department", "research", "email",
   "homepage_url", "source_url", "school", "college", "education",
   "experiences", "skills", "projects"]

/-- Keys `llm_extract` fills with `setdefault(key, "")` (line 233). -/
def llmSetDefaultKeys : List String :=
  ["title", "mentor_type", "department", "research", "email", "homepage_url",
   "education", "experiences", "skills", "projects"]

/-- Dict assignment `d[k] = v`: replace the first binding or append. -/
def pySet : List (String × PyVal) → String → PyVal → List (String × PyVal)
  | [], k, v => [(k, v)]
  | kv :: rest, k, v => if kv.1 == k then (k, v) :: rest else kv :: pySet rest k v

/-- `d.setdefault(k, v)`. -/
def pySetDefault : List (String × PyVal) → String → PyVal → List (String × PyVal)
  | [], k, v => [(k, v)]
  | kv :: rest, k, v => if kv.1 == k then kv :: rest else kv :: pySetDefault rest k v

/-- List-field normalization of `llm_extract` (lines 236-244): strings
become singleton or empty lists, lists are kept, `list(value)` of a
dict yields its keys, and non-iterables fall to `[]` through the inner
`except`. -/
def coerceListVal (v : PyVal) : List PyVal :=
  match v with
  | .str s => if pyStrip s ≠ "" then [.str s] else []
  | .list xs => xs
  | .dict kvs => kvs.map (fun kv => PyVal.str kv.1)
  | _ => []

/-- The heuristic fallback profile `_heuristic_profile` of
`llm_extract` (advisor_crawler.py, lines 197-216). -/
def heuristicProfile (profile_text source_url fallback_name : String) : AdvisorProfile :=
  { name := .str fallback_name
    title := .str ""
    mentor_type := .str ""
    department := .str ""
    research := .str (pyTake 300 profile_text)
    email := .str (reSearchBuggyEmail profile_text)
    homepage_url := .str source_url
    source_url := .str source_url
    school := .str ""
    college := .str ""
    education := []
    experiences := []
    skills := []
    projects := [] }

/-- Model response to `llm_extract`: either `json.loads` raised, or it
produced a JSON value. -/
inductive LlmRaw where
  | unparseable : LlmRaw
  | parsed : PyVal → LlmRaw

/-- The object `llm_extract` works on after the list unwrap (lines
219-221): first element of a list when it is a dict, else `{}` for
lists, else the value itself. -/
def llmObjOf (v0 : PyVal) : PyVal :=
  match v0 with
  | .list xs =>
    match xs with
    | (PyVal.dict kvs) :: _ => PyVal.dict kvs
    | _ => PyVal.dict []
  | w => w

/-- The dict after `llm_extract`'s mutations (lines 229-234): name
fallback when the model name is falsy, forced `source_url`, and the
setdefault loop. -/
def llmObjFixed (source_url fallback_name : String)
    (kvs0 : List (String × PyVal)) : List (String × PyVal) :=
  llmSetDefaultKeys.foldl (fun acc k => pySetDefault acc k (.str ""))
    (pySet
      (if pyTruthy (pyDictGet kvs0 "name" .none) then kvs0
       else pySet kvs0 "name" (.str fallback_name))
      "source_url" (.str source_url))

/-- Construction `AdvisorProfile(**obj)` for a dict model output: a
key outside the dataclass's fields raises `TypeError`
(`Except.error`); otherwise the profile is built, the four collection
fields passing through the list normalization. -/
def llmExtractDict (source_url fallback_name : String)
    (kvs0 : List (String × PyVal)) : Except Unit AdvisorProfile :=
  if (llmObjFixed source_url fallback_name kvs0).all
      (fun kv => advisorFieldNames.contains kv.1) then
    .ok { name := pyDictGet (llmObjFixed source_url fallback_name kvs0) "name" .none
          title := pyDictGet (llmObjFixed source_url fallback_name kvs0) "title" .none
          mentor_type := pyDictGet (llmObjFixed source_url fallback_name kvs0) "mentor_type" .none
          department := pyDictGet (llmObjFixed source_url fallback_name kvs0) "department" .none
          research := pyDictGet (llmObjFixed source_url fallback_name kvs0) "research" .none
          email := pyDictGet (llmObjFixed source_url fallback_name kvs0) "email" .none
          homepage_url := pyDictGet (llmObjFixed source_url fallback_name kvs0) "homepage_url" .none
          source_url := pyDictGet (llmObjFixed source_url fallback_name kvs0) "source_url" .none
          school := pyDictGet (llmObjFixed source_url fallback_name kvs0) "school" (.str "")
          college := pyDictGet (llmObjFixed source_url fallback_name kvs0) "college" (.str "")
          education := coerceListVal
            (pyDictGet (llmObjFixed source_url fallback_name kvs0) "education" (.list []))
          experiences := coerceListVal
            (pyDictGet (llmObjFixed source_url fallback_name kvs0) "experiences" (.list []))
          skills := coerceListVal
            (pyDictGet (llmObjFixed source_url fallback_name kvs0) "skills" (.list []))
          projects := coerceListVal
            (pyDictGet (llmObjFixed source_url fallback_name kvs0) "projects" (.list [])) }
  else .error ()

/-- Dispatch of `llm_extract` on the shape of the parsed value:
non-dict values fall to the heuristic profile. -/
def llmExtractObj (profile_text source_url fallback_name : String) :
    PyVal → Except Unit AdvisorProfile
  | .dict kvs0 => llmExtractDict source_url fallback_name kvs0
  | _ => .ok (heuristicProfile profile_text source_url fallback_name)

/-- Embedding of `llm_extract` (advisor_crawler.py, lines 161-245)
after the model call: JSON-parse failure falls to the heuristic
profile, otherwise the parsed value is unwrapped and dispatched. -/
def llmExtract (profile_text source_url fallback_name : String) (resp : LlmRaw) :
    Except Unit AdvisorProfile :=
  match resp with
  | .unparseable => .ok (heuristicProfile profile_text source_url fallback_name)
  | .parsed v0 => llmExtractObj profile_text source_url fallback_name (llmObjOf v0)

/-- The name the model output supplies, if any (for the C10
statement). -/
def modelNameOf (resp : LlmRaw) : PyVal :=
  match resp with
  | .unparseable => PyVal.none
  | .parsed v0 =>
    match llmObjOf v0 with
    | .dict kvs => pyDictGet kvs "name" PyVal.none
    | _ => PyVal.none

/-- Organizational tokens rejected by `_is_person`
(clean_profiles_with_gemini, advisor_crawler.py lines 268-280). -/
def cleanBadTokens : List String :=
  ["people", "faculty", "staff", "office", "department", "center", "lab", "research"]

/-- Embedding of `_is_person`: trimmed non-empty, no organizational
token, no digit, length in [2, 80]. -/
def isPersonName (name : String) : Bool :=
  let n := pyStrip name
  if n = "" then false
  else if cleanBadTokens.any (fun t => pyContains t (pyLower n)) then false
  else if n.data.any Char.isDigit then false
  else if n.length < 2 || n.length > 80 then false
  else true

/-- Scalar keys `clean_profiles_with_gemini` fills with
`setdefault(key, "")` (line 302). -/
def cleanScalarKeys : List String :=
  ["title", "mentor_type", "department", "research", "email", "homepage_url",
   "source_url", "school", "college"]

/-- Collection keys normalized by both cleaning passes. -/
def cleanListKeys : List String := ["education", "experiences", "skills", "projects"]

/-- List-field normalization of `clean_profiles_with_gemini` (lines
304-312): values already of list shape (or absent, via the `[]`
default) are left untouched; strings become singleton or empty lists;
`list(dict)` yields the keys; non-iterables fall to `[]` through the
inner `except`. -/
def normListKey (kvs : List (String × PyVal)) (k : String) : List (String × PyVal) :=
  match pyDictGet kvs k (.list []) with
  | .list _ => kvs
  | .str s => pySet kvs k (.list (if pyStrip s ≠ "" then [.str s] else []))
  | .dict d => pySet kvs k (.list (d.map (fun kv => PyVal.str kv.1)))
  | _ => pySet kvs k (.list [])

/-- The cleaning loop of `clean_profiles_with_gemini` (lines 294-313);
`Except.error` marks the `AttributeError` raised by `.strip()` on a
truthy non-string name, which the outer handler turns into the
unchanged input list. -/
def cleanItems : List PyVal → Except Unit (List PyVal)
  | [] => .ok []
  | it :: rest =>
    match it with
    | .dict kvs =>
      let nv := pyDictGet kvs "name" PyVal.none
      if pyTruthy nv then
        match nv with
        | .str s =>
          if pyStrip s = "" then cleanItems rest
          else if ¬ isPersonName s then cleanItems rest
          else
            match cleanItems rest with
            | .ok tail =>
              .ok (PyVal.dict (cleanListKeys.foldl normListKey
                (cleanScalarKeys.foldl (fun acc k => pySetDefault acc k (.str "")) kvs)) :: tail)
            | .error e => .error e
        | _ => .error ()
      else cleanItems rest
    | _ => cleanItems rest

/-- The value `clean_profiles_with_gemini` iterates over: a dict
response is unwrapped through `data.get("profiles") or []` (lines
289-290). -/
def cleanDataOf (v : PyVal) : PyVal :=
  match v with
  | .dict kvs =>
    let p := pyDictGet kvs "profiles" PyVal.none
    if pyTruthy p then p else .list []
  | w => w

/-- Embedding of `clean_profiles_with_gemini` (advisor_crawler.py,
lines 248-317).  `resp` is the outcome of the model call combined with
`json.loads` (`exn` when either raised). -/
def cleanProfilesWithGemini (profiles : List PyVal) (resp : PyOutcome PyVal) :
    List PyVal :=
  if profiles.isEmpty then profiles
  else
    match resp with
    | .exn => profiles
    | .ok v =>
      match cleanDataOf v with
      | .list items =>
        match cleanItems items with
        | .ok cleaned => if cleaned.isEmpty then profiles else cleaned
        | .error _ => profiles
      | _ => profiles

/-- Positive path hints of `is_faculty_link` (advisor_crawler.py,
lines 99-107). -/
def facultyPositives : List String :=
  ["/faculty", "/people", "/profile", "/researcher", "/researchers", "/bio", "/cv"]

/-- Negative path filters of `is_faculty_link`. -/
def facultyNegatives : List String :=
  ["staff", "office", "recruit", "apply", "give", "alumni", "news", "events", "support"]

/-- Embedding of `is_faculty_link`: reject when any negative token
occurs, else accept when any positive hint occurs. -/
def isFacultyLink (url : String) : Bool :=
  if facultyNegatives.any (fun neg => pyContains neg (pyLower url)) then false
  else facultyPositives.any (fun key => pyContains key (pyLower url))

/-- Value model of `urllib.parse.urlparse(url).path` for the absolute
`http(s)` URLs that reach it: the fragment is split off first (as in
urllib), then the scheme separator and network location are dropped
and the path ends at the query. -/
def urlPath (s : String) : String :=
  match splitFirst "://".data (s.data.takeWhile (fun c => c ≠ '#')) with
  | some (_, rest) => ⟨(rest.dropWhile (fun c => c ≠ '/')).takeWhile (fun c => c ≠ '?')⟩
  | Option.none => ⟨(s.data.takeWhile (fun c => c ≠ '#')).takeWhile (fun c => c ≠ '?')⟩

/-- `href.split("#", 1)[0]`. -/
def stripFragment (s : String) : String := ⟨s.data.takeWhile (fun c => c ≠ '#')⟩

/-- Generic navigation labels skipped by `extract_detail_links` (line
134). -/
def skipLabelTokens : List String :=
  ["skip to main content", "apply now!", "faculty & researchers", "offices", "staff",
   "people", "faculty", "faculty a–d", "faculty ai+d"]

/-- An `<a href>` element of the parsed listing page: `href` attribute
and whitespace-stripped anchor text (`get_text(strip=True)`). -/
structure Anchor where
  href : String
  text : String
deriving DecidableEq, Repr

/-- Tail of the anchor filter of `extract_detail_links` after the
absolute URL `href` is known (advisor_crawler.py, lines 127-140). -/
def keepAnchorCore (a : Anchor) (href : String) : Option (String × String) :=
  if ¬ pyStartsWith "http" (pyLower href) then Option.none
  else if isFacultyLink (urlPath href) then
    if skipLabelTokens.contains (pyLower a.text) then Option.none
    else if ["people", "faculty", "staff"].any
        (fun tok => pyContains tok (pyLower a.text)) then Option.none
    else some (a.text, stripFragment href)
  else Option.none

/-- Filter applied to one anchor by `extract_detail_links`
(advisor_crawler.py, lines 117-140); `urljoin` is
`requests.compat.urljoin`, passed as an oracle. -/
def keepAnchor (urljoin : String → String → String) (baseUrl : String) (a : Anchor) :
    Option (String × String) :=
  if pyStrip a.href = "" || a.text = "" then Option.none
  else if pyStartsWith "#" (pyStrip a.href) ||
      pyStartsWith "javascript" (pyLower (pyStrip a.href)) then Option.none
  else
    keepAnchorCore a
      (if ¬ pyStartsWith "http" (pyStrip a.href) then urljoin baseUrl (pyStrip a.href)
       else pyStrip a.href)

/-- First-occurrence URL dedup of `extract_detail_links` (lines
142-147). -/
def dedupByUrl : List (String × String) → List String → List (String × String)
  | [], _ => []
  | p :: rest, seen =>
    if seen.contains p.2 then dedupByUrl rest seen
    else p :: dedupByUrl rest (p.2 :: seen)

/-- Embedding of `extract_detail_links` (advisor_crawler.py, lines
110-147) over the anchor elements of the parsed page. -/
def extractDetailLinks (urljoin : String → String → String) (baseUrl : String)
    (anchors : List Anchor) : List (String × String) :=
  dedupByUrl (anchors.filterMap (keepAnchor urljoin baseUrl)) []

/-- A search hit (`WebSearchResult` dataclass, web_scraper.py). -/
structure WebSearchResult where
  title : String
  url : String
  snippet : String
deriving DecidableEq, Repr

/-- An HTTP request issued through `self.session.get`; `timeout` is
the keyword the adapter passes (`none` would mean unbounded). -/
structure IssuedReq where
  url : String
  timeout : Option Nat
deriving DecidableEq, Repr

/-- The `WebScraper` instance state (web_scraper.py, lines 61-64): the
constructor stores the bounded timeout (default 15). -/
structure WebScraper where
  timeout : Nat
deriving DecidableEq, Repr

/-- One Google CSE JSON item. -/
structure CseItem where
  title : String
  link : String
  snippet : String
deriving DecidableEq, Repr

/-- Parsed Google CSE response: `resp.json()` raised, or a document
whose `items` key is a list or absent/falsy. -/
inductive CseBody where
  | malformed : CseBody
  | json : Option (List CseItem) → CseBody
deriving DecidableEq, Repr

/-- One DuckDuckGo `.result` block: optional `.result__title a`
element (text and href attribute) and optional snippet element. -/
structure DdgItem where
  titleElem : Option (String × String)
  snippet : Option String
deriving DecidableEq, Repr

/-- Parsed DuckDuckGo HTML body: anomaly/challenge marker and result
blocks (a malformed page simply parses to no blocks). -/
structure DdgBody where
  anomaly : Bool
  results : List DdgItem
deriving DecidableEq, Repr

/-- One Google HTML `div.g` block. -/
structure GoogleBlock where
  h3 : Option String
  a : Option String
  snippet : Option String
deriving DecidableEq, Repr

/-- One Bing `.b_algo` block. -/
structure BingItem where
  titleElem : Option (String × String)
  snippet : Option String
deriving DecidableEq, Repr

/-- Network oracle for one `search_person` call: configuration flags
for the keyed API and the outcome each backend would return
(`exn` = transport failure or timeout raised by `requests`). -/
structure ScrapeEnv where
  cseKey : Bool
  cseCx : Bool
  cseNet : PyOutcome (Nat × CseBody)
  ddgNet : PyOutcome (Nat × DdgBody)
  googleNet : PyOutcome (Nat × List GoogleBlock)
  bingNet : PyOutcome (Nat × List BingItem)

/-- ASCII model of `urllib.parse.quote_plus`. -/
def quotePlusChar (c : Char) : List Char :=
  if c = ' ' then ['+']
  else if c.isAlphanum || c == '_' || c == '.' || c == '-' || c == '~' then [c]
  else ['%', hexDigit (c.toNat / 16 % 16), hexDigit (c.toNat % 16)]

/-- `urllib.parse.quote_plus(s)` (ASCII model). -/
def quotePlus (s : String) : String := ⟨s.data.flatMap quotePlusChar⟩

/-- Value model of `urlparse(url).query`: fragment split first, then
the text after the first `?`. -/
def urlQuery (s : String) : String :=
  match splitFirst ['?'] (s.data.takeWhile (fun c => c ≠ '#')) with
  | some (_, q) => ⟨q⟩
  | Option.none => ""

/-- Hex digit value. -/
def hexVal (c : Char) : Option Nat :=
  if c.isDigit then some (c.toNat - 48)
  else if 'a' ≤ c ∧ c ≤ 'f' then some (c.toNat - 87)
  else if 'A' ≤ c ∧ c ≤ 'F' then some (c.toNat - 55)
  else Option.none

/-- Percent-decoding with `+` as space (ASCII model of
`urllib.parse.unquote_plus`). -/
def pctDecode : List Char → List Char
  | [] => []
  | '%' :: a :: b :: rest =>
    match hexVal a, hexVal b with
    | some x, some y => Char.ofNat (16 * x + y) :: pctDecode rest
    | _, _ => '%' :: pctDecode (a :: b :: rest)
  | '+' :: rest => ' ' :: pctDecode rest
  | c :: rest => c :: pctDecode rest

/-- Split on a single character (Python `s.split(sep)`). -/
def splitOnChar (sep : Char) : List Char → List (List Char)
  | [] => [[]]
  | c :: cs =>
    if c = sep then [] :: splitOnChar sep cs
    else
      match splitOnChar sep cs with
      | [] => [[c]]
      | p :: ps => (c :: p) :: ps

/-- One querystring pair's value for `key` (`parse_qs` drops pairs
with no `=` or a blank raw value). -/
def qsPairVal (key : List Char) (pair : List Char) : Option String :=
  match splitFirst ['='] pair with
  | some (k, v) =>
    if pctDecode k = key ∧ v ≠ [] then some ⟨pctDecode v⟩ else Option.none
  | Option.none => Option.none

/-- `parse_qs(urlparse(href).query).get("uddg", [href])[0]` — the DDG
redirect unwrapping (web_scraper.py, lines 134-137). -/
def parseQsUddg (href : String) : Option String :=
  match (splitOnChar '&' (urlQuery href).data).filterMap (qsPairVal "uddg".data) with
  | v :: _ => some v
  | [] => Option.none

/-- One DuckDuckGo result block to a `WebSearchResult` (skipped when
the title element is missing). -/
def ddgResultOf (d : DdgItem) : Option WebSearchResult :=
  match d.titleElem with
  | Option.none => Option.none
  | some (text, href0) =>
    let href := if pyContains "uddg=" href0 then (parseQsUddg href0).getD href0 else href0
    some { title := text, url := href, snippet := d.snippet.getD "" }

/-- Result list of `WebScraper._search_google_api` (web_scraper.py,
lines 88-110) as a function of the network outcome: transport
exception, `raise_for_status` and `resp.json()` failure are all caught
by the adapter's `except` and yield `[]`. -/
def googleApiResults (env : ScrapeEnv) (maxResults : Nat) : List WebSearchResult :=
  match env.cseNet with
  | .exn => []
  | .ok (status, body) =>
    if 400 ≤ status then []
    else
      match body with
      | .malformed => []
      | .json items? =>
        ((items?.getD []).take maxResults).filterMap fun it =>
          if it.title ≠ "" ∧ it.link ≠ "" then
            some { title := it.title, url := it.link, snippet := it.snippet }
          else Option.none

/-- Embedding of `WebScraper._search_google_api`: unconfigured keys
issue no request; otherwise one request with the bounded timeout. -/
def searchGoogleApi (w : WebScraper) (env : ScrapeEnv) (query : String)
    (maxResults : Nat) : List WebSearchResult × List IssuedReq :=
  if ¬ (env.cseKey ∧ env.cseCx) then ([], [])
  else
    (googleApiResults env maxResults,
     [{ url := "https://www.googleapis.com/customsearch/v1?q=" ++ quotePlus query
        timeout := some w.timeout }])

/-- Result list of `WebScraper._search_duckduckgo` (lines 112-145). -/
def ddgResults (env : ScrapeEnv) (maxResults : Nat) : List WebSearchResult :=
  match env.ddgNet with
  | .exn => []
  | .ok (status, body) =>
    if 400 ≤ status then []
    else if status ≠ 200 ∨ body.anomaly then []
    else (body.results.take maxResults).filterMap ddgResultOf

/-- Embedding of `WebScraper._search_duckduckgo`. -/
def searchDuckduckgo (w : WebScraper) (env : ScrapeEnv) (query : String)
    (maxResults : Nat) : List WebSearchResult × List IssuedReq :=
  (ddgResults env maxResults,
   [{ url := "https://html.duckduckgo.com/html/?q=" ++ quotePlus query
      timeout := some w.timeout }])

/-- Result list of `WebScraper._search_google` (lines 147-170). -/
def googleHtmlResults (env : ScrapeEnv) (maxResults : Nat) : List WebSearchResult :=
  match env.googleNet with
  | .exn => []
  | .ok (status, blocks) =>
    if 400 ≤ status then []
    else if status ≠ 200 then []
    else
      (blocks.take maxResults).filterMap fun g =>
        match g.h3, g.a with
        | some t, some href =>
          some { title := t, url := href, snippet := g.snippet.getD "" }
        | _, _ => Option.none

/-- Embedding of `WebScraper._search_google`. -/
def searchGoogleHtml (w : WebScraper) (env : ScrapeEnv) (query : String)
    (maxResults : Nat) : List WebSearchResult × List IssuedReq :=
  (googleHtmlResults env maxResults,
   [{ url := "https://www.google.com/search?q=" ++ quotePlus query ++ "&hl=zh-CN"
      timeout := some w.timeout }])

/-- Result list of `WebScraper._search_bing` (lines 172-197). -/
def bingResults (env : ScrapeEnv) (maxResults : Nat) : List WebSearchResult :=
  match env.bingNet with
  | .exn => []
  | .ok (status, blocks) =>
    if 400 ≤ status then []
    else
      (blocks.take maxResults).filterMap fun b =>
        match b.titleElem with
        | some (t, href) =>
          some { title := t, url := href, snippet := b.snippet.getD "" }
        | Option.none => Option.none

/-- Embedding of `WebScraper._search_bing`. -/
def searchBing (w : WebScraper) (env : ScrapeEnv) (query : String)
    (maxResults : Nat) : List WebSearchResult × List IssuedReq :=
  (bingResults env maxResults,
   [{ url := "https://www.bing.com/search?q=" ++ quotePlus query ++
        "&mkt=zh-CN&ensearch=0&FORM=HDRSC1"
      timeout := some w.timeout }])

/-- Embedding of `WebScraper.search_person` (web_scraper.py, lines
66-86): Google CSE, then Bing, then Google HTML, then DuckDuckGo,
first non-empty result list wins; the issued requests are
accumulated. -/
def searchPerson (w : WebScraper) (env : ScrapeEnv) (name field : String)
    (maxResults : Nat) : List WebSearchResult × List IssuedReq :=
  if ¬ (searchGoogleApi w env (name ++ " " ++ field) maxResults).1.isEmpty then
    searchGoogleApi w env (name ++ " " ++ field) maxResults
  else if ¬ (searchBing w env (name ++ " " ++ field) maxResults).1.isEmpty then
    ((searchBing w env (name ++ " " ++ field) maxResults).1,
     (searchGoogleApi w env (name ++ " " ++ field) maxResults).2 ++
       (searchBing w env (name ++ " " ++ field) maxResults).2)
  else if ¬ (searchGoogleHtml w env (name ++ " " ++ field) maxResults).1.isEmpty then
    ((searchGoogleHtml w env (name ++ " " ++ field) maxResults).1,
     (searchGoogleApi w env (name ++ " " ++ field) maxResults).2 ++
       (searchBing w env (name ++ " " ++ field) maxResults).2 ++
       (searchGoogleHtml w env (name ++ " " ++ field) maxResults).2)
  else
    ((searchDuckduckgo w env (name ++ " " ++ field) maxResults).1,
     (searchGoogleApi w env (name ++ " " ++ field) maxResults).2 ++
       (searchBing w env (name ++ " " ++ field) maxResults).2 ++
       (searchGoogleHtml w env (name ++ " " ++ field) maxResults).2 ++
       (searchDuckduckgo w env (name ++ " " ++ field) maxResults).2)

/-- Non-overlapping global replace (Python `s.replace(pat, rep)`),
fuel-bounded so it evaluates in the kernel. -/
def replaceAllAux (pat rep : List Char) : Nat → List Char → List Char
  | 0, cs => cs
  | Nat.succ n, cs =>
    match splitFirst pat cs with
    | some (pre, post) => pre ++ rep ++ replaceAllAux pat rep n post
    | Option.none => cs

/-- Python `s.replace(pat, rep)` for non-empty `pat`. -/
def pyReplace (s pat rep : String) : String :=
  ⟨replaceAllAux pat.data rep.data s.data.length s.data⟩

/-- Embedding of `_parse_linkedin_title` (email_agent.py, lines
1473-1513): name and position from a LinkedIn search-result title. -/
def parseLinkedinTitle (title0 : String) : String × String :=
  if title0 = "" then ("", "")
  else
    let title := pyStrip (pyReplace (pyReplace title0 " | LinkedIn" "") "- LinkedIn" "")
    if pyContains " - " title then
      match splitFirst " - ".data title.data with
      | some (pre, post) =>
        let name0 := pyStrip ⟨pre⟩
        let name :=
          if pyContains "," name0 then pyStrip ⟨name0.data.takeWhile (fun c => c ≠ ',')⟩
          else name0
        (name, pyStrip ⟨post⟩)
      | Option.none => (pyStrip title, "")
    else if pyContains " at " (pyLower title) then
      match splitFirst " at ".data (pyLower title).data with
      | some (pre, _) =>
        (pyStrip ⟨title.data.take pre.length⟩, pyStrip ⟨title.data.drop pre.length⟩)
      | Option.none => (pyStrip title, "")
    else (pyStrip title, "")

/-- One Google organic result as returned by the SerpAPI JSON. -/
structure Organic where
  link : String
  title : String
  snippet : String
deriving DecidableEq, Repr

/-- One organic result to a recommendation record
(`_search_linkedin_via_serpapi` loop body, email_agent.py lines
1416-1454). -/
def serpapiRecOf (field : String) (r : Organic) : Option TargetRec :=
  if r.link = "" ∨ ¬ pyContains "/in/" r.link ∨
      ¬ pyContains "linkedin.com/in/" (pyLower r.link) then Option.none
  else
    let cleanUrl : String := ⟨rstripSlash (r.link.data.takeWhile (fun c => c ≠ '?'))⟩
    if (validateLinkedinUrl (some cleanUrl)).isNone then Option.none
    else
      let np := parseLinkedinTitle r.title
      if np.1 = "" then Option.none
      else
        some { name := np.1
               position := np.2
               field := field
               linkedin_url := some cleanUrl
               match_score := 75
               match_reason := "Found via LinkedIn search for " ++ field
               common_interests := ""
               evidence := if r.snippet ≠ "" then [pyTake 200 r.snippet] else []
               sources := [cleanUrl]
               uncertainty := "low" }

/-- The collection loop with its `len(results) >= count` break. -/
def serpapiCollect (field : String) (count : Nat) :
    List Organic → List TargetRec → List TargetRec
  | [], acc => acc
  | r :: rest, acc =>
    match serpapiRecOf field r with
    | Option.none => serpapiCollect field count rest acc
    | some rec =>
      if count ≤ (acc ++ [rec]).length then acc ++ [rec]
      else serpapiCollect field count rest (acc ++ [rec])

/-- Embedding of `_search_linkedin_via_serpapi` (email_agent.py, lines
1366-1470): missing key, network/JSON failure and missing
`organic_results` all yield the empty list. -/
def searchLinkedinViaSerpapi (keyCfg : Bool) (net : PyOutcome (Option (List Organic)))
    (field : String) (count : Nat) : List TargetRec :=
  if ¬ keyCfg then []
  else
    match net with
    | .exn => []
    | .ok Option.none => []
    | .ok (some organic) => serpapiCollect field count organic []

/-- One AI-scored candidate item (`scored_candidates` entry); the
`outreach_angle`/`response_likelihood` strings are written to dict
keys no downstream consumer reads, so they are not modelled. -/
structure ScoredItem where
  match_score : Option Int
  match_reason : Option String
  common_interests : Option String
deriving Repr

/-- The merge loop of `_ai_score_and_analyze_candidates` (email_agent.py,
lines 1631-1638): candidate `i` takes scored item `i`'s fields when it
exists. -/
def mergeScored : List TargetRec → List ScoredItem → List TargetRec
  | [], _ => []
  | c :: cs, [] => c :: cs
  | c :: cs, s :: ss =>
    { c with match_score := s.match_score.getD 75
             match_reason := s.match_reason.getD ""
             common_interests := s.common_interests.getD "" } :: mergeScored cs ss

/-- Stable-descending insertion (model of Python's stable
`list.sort(key=..., reverse=True)` on `match_score`). -/
def insertByScoreDesc (r : TargetRec) : List TargetRec → List TargetRec
  | [] => [r]
  | x :: xs =>
    if r.match_score ≤ x.match_score then x :: insertByScoreDesc r xs
    else r :: x :: xs

/-- `candidates.sort(key=match_score, reverse=True)`. -/
def sortByScoreDesc : List TargetRec → List TargetRec
  | [] => []
  | x :: xs => insertByScoreDesc x (sortByScoreDesc xs)

/-- Embedding of `_ai_score_and_analyze_candidates` (email_agent.py,
lines 1516-1649): on any exception the original candidate list is
returned unchanged. -/
def aiScoreAndAnalyze (outcome : PyOutcome (List ScoredItem))
    (cands : List TargetRec) : List TargetRec :=
  match outcome with
  | .exn => cands
  | .ok scored => sortByScoreDesc (mergeScored cands scored)

/-- Outcome of the final default Gemini call's content: a
`json.JSONDecodeError` (caught, line 2066), a non-object top level
(whose `.get` raises an uncaught `AttributeError`), or the parsed
`recommendations` value. -/
inductive FinalParse where
  | decodeError : FinalParse
  | topNotDict : FinalParse
  | recs : PyVal → FinalParse

/-- Oracle for one `find_target_recommendations` call: configuration
flags, the outcome of every impure call a strategy makes (`exn` covers
each strategy's caught exceptions), and the final default Gemini call
whose exceptions are NOT caught (email_agent.py, line 2050 sits
outside the try that begins at line 2052). -/
structure RecEnv where
  serpapiKey : Bool
  serpapiNet : PyOutcome (Option (List Organic))
  aiScoring : PyOutcome (List ScoredItem)
  useGeminiSearch : Bool
  geminiSearchItems : PyOutcome PyVal
  useOpenaiWebSearch : Bool
  useOpenaiRecs : Bool
  openaiWebItems : PyOutcome PyVal
  openaiGather : PyOutcome (String × List String)
  openaiScrapeItems : PyOutcome PyVal
  gemGather : PyOutcome (String × List String)
  gemScrapeItems : PyOutcome PyVal
  lookup : String → String → String → Option String
  finalCall : PyOutcome FinalParse

/-- The SerpAPI primary stage (email_agent.py, lines 1842-1882):
accept only three or more real profiles, AI-score them and truncate. -/
def ftrStage1 (env : RecEnv) (field : String) (count : Nat) : Option (List TargetRec) :=
  if env.serpapiKey then
    if 3 ≤ (searchLinkedinViaSerpapi env.serpapiKey env.serpapiNet field count).length then
      some ((aiScoreAndAnalyze env.aiScoring
        (searchLinkedinViaSerpapi env.serpapiKey env.serpapiNet field count)).take count)
    else Option.none
  else Option.none

/-- Shared tail of the LLM-recommendation stages: normalize, sort
descending by score, accept when non-empty (lines 1925-1939 and the
analogous fallbacks). -/
def ftrNormStage (lookup : String → String → String → Option String) :
    PyOutcome PyVal → Nat → Option (List TargetRec)
  | .exn, _ => Option.none
  | .ok items, count =>
    if (sortByScoreDesc (normalizeRecommendations lookup items)).isEmpty then Option.none
    else some ((sortByScoreDesc (normalizeRecommendations lookup items)).take count)

/-- Gemini-with-Google-Search stage (lines 1888-1941). -/
def ftrStage2 (env : RecEnv) (count : Nat) : Option (List TargetRec) :=
  if env.useGeminiSearch then ftrNormStage env.lookup env.geminiSearchItems count
  else Option.none

/-- OpenAI web-search stage (lines 1944-1975), behind two flags. -/
def ftrStage3 (env : RecEnv) (count : Nat) : Option (List TargetRec) :=
  if env.useOpenaiWebSearch ∧ env.useOpenaiRecs then
    ftrNormStage env.lookup env.openaiWebItems count
  else Option.none

/-- OpenAI scrape stage (lines 1978-2001). -/
def ftrStage4 (env : RecEnv) (count : Nat) : Option (List TargetRec) :=
  if env.useOpenaiRecs then
    match env.openaiGather with
    | .exn => Option.none
    | .ok _ => ftrNormStage env.lookup env.openaiScrapeItems count
  else Option.none

/-- Scrape-plus-Gemini stage (lines 2004-2037): skipped without web
context. -/
def ftrStage5 (env : RecEnv) (count : Nat) : Option (List TargetRec) :=
  match env.gemGather with
  | .exn => Option.none
  | .ok (webText, sources) =>
    if webText ≠ "" ∨ sources ≠ [] then ftrNormStage env.lookup env.gemScrapeItems count
    else Option.none

/-- The final default Gemini strategy (lines 2039-2082): an exception
in `_call_gemini` or an `AttributeError` on a non-object JSON value
propagates to the caller; a decode error or an empty normalization
yields the single synthetic fallback record. -/
def ftrFinal (env : RecEnv) (field : String) (count : Nat) :
    Except Unit (List TargetRec) :=
  match env.finalCall with
  | .exn => .error ()
  | .ok FinalParse.decodeError => .ok [syntheticFallbackRec field]
  | .ok FinalParse.topNotDict => .error ()
  | .ok (FinalParse.recs items) =>
    if (sortByScoreDesc (normalizeRecommendations env.lookup items)).isEmpty then
      .ok [syntheticFallbackRec field]
    else .ok ((sortByScoreDesc (normalizeRecommendations env.lookup items)).take count)

/-- Embedding of `find_target_recommendations` (email_agent.py, lines
1806-2082) as the strategy cascade over the call oracle. -/
def findTargetRecommendations (env : RecEnv) (field : String) (count : Nat) :
    Except Unit (List TargetRec) :=
  match ftrStage1 env field count with
  | some r => .ok r
  | Option.none =>
    match ftrStage2 env count with
    | some r => .ok r
    | Option.none =>
      match ftrStage3 env count with
      | some r => .ok r
      | Option.none =>
        match ftrStage4 env count with
        | some r => .ok r
        | Option.none =>
          match ftrStage5 env count with
          | some r => .ok r
          | Option.none => ftrFinal env field count

/-- Environment of the C1 amended-claim witness: like the
counterexample, but the final Gemini call returns undecodable JSON
(caught), so the synthetic fallback is produced. -/
def c1WitEnv : RecEnv :=
  { serpapiKey := true
    serpapiNet := .exn
    aiScoring := .exn
    useGeminiSearch := true
    geminiSearchItems := .exn
    useOpenaiWebSearch := false
    useOpenaiRecs := false
    openaiWebItems := .exn
    openaiGather := .exn
    openaiScrapeItems := .exn
    gemGather := .ok ("", [])
    gemScrapeItems := .exn
    lookup := fun _ _ _ => Option.none
    finalCall := .ok FinalParse.decodeError }

/-- Environment of the C1 counterexample: SerpAPI and Gemini Search
are configured but every call fails, the OpenAI strategies are
disabled (their default), the scrape fallback finds no web context,
and the final default Gemini call raises. -/
def c1CexEnv : RecEnv :=
  { serpapiKey := true
    serpapiNet := .exn
    aiScoring := .exn
    useGeminiSearch := true
    geminiSearchItems := .exn
    useOpenaiWebSearch := false
    useOpenaiRecs := false
    openaiWebItems := .exn
    openaiGather := .exn
    openaiScrapeItems := .exn
    gemGather := .ok ("", [])
    gemScrapeItems := .exn
    lookup := fun _ _ _ => Option.none
    finalCall := .exn }

/-- The page text of the C5 scenario. -/
def johnText : String :=
  "John Smith is a professor at Example University. Contact: john.smith@example.org"

/-! ### Theorems -/

theorem le_foldl_maxScore (g : List CrawlRec) (m : Nat) :
    m ≤ g.foldl (fun a x => max a (crawlScore x)) m := by
  induction g generalizing m with
  | nil => exact le_refl m
  | cons y g ih => exact le_trans (le_max_left m (crawlScore y)) (ih (max m (crawlScore y)))

theorem score_le_foldl_maxScore {g : List CrawlRec} {x : CrawlRec} (hx : x ∈ g) (m : Nat) :
    crawlScore x ≤ g.foldl (fun a z => max a (crawlScore z)) m := by
  induction g generalizing m with
  | nil => cases hx
  | cons y g ih =>
    rcases List.mem_cons.mp hx with h | h
    · subst h
      exact le_trans (le_max_right m (crawlScore x)) (le_foldl_maxScore g _)
    · exact ih h _

theorem score_le_maxScore {g : List CrawlRec} {x : CrawlRec} (hx : x ∈ g) :
    crawlScore x ≤ maxScore g := score_le_foldl_maxScore hx 0

theorem maxScore_append_one (g : List CrawlRec) (r : CrawlRec) :
    maxScore (g ++ [r]) = max (maxScore g) (crawlScore r) := by
  simp [maxScore, List.foldl_append]

theorem firstMax_spec {g : List CrawlRec} {x : CrawlRec} (h : firstMax g = some x) :
    x ∈ g ∧ crawlScore x = maxScore g := by
  refine ⟨List.mem_of_find?_eq_some h, ?_⟩
  have := List.find?_some h
  simpa using this

theorem firstMax_singleton (r : CrawlRec) : firstMax [r] = some r := by
  simp [firstMax, maxScore, List.find?]

theorem firstMax_append_one {g : List CrawlRec} {x : CrawlRec} (r : CrawlRec)
    (h : firstMax g = some x) :
    firstMax (g ++ [r]) = some (if crawlScore x < crawlScore r then r else x) := by
  obtain ⟨hxg, hxs⟩ := firstMax_spec h
  by_cases hlt : crawlScore x < crawlScore r
  · have hm2 : maxScore (g ++ [r]) = crawlScore r := by
      rw [maxScore_append_one, ← hxs]
      exact max_eq_right (le_of_lt hlt)
    have hnone : g.find? (fun y => decide (crawlScore y = maxScore (g ++ [r]))) =
        Option.none := by
      apply List.find?_eq_none.mpr
      intro y hy
      have h1 : crawlScore y ≤ maxScore g := score_le_maxScore hy
      rw [hm2]
      simp only [decide_eq_true_eq]
      omega
    unfold firstMax
    rw [List.find?_append, hnone]
    simp [hm2, hlt]
  · have hle : crawlScore r ≤ crawlScore x := le_of_not_lt hlt
    have hm2 : maxScore (g ++ [r]) = maxScore g := by
      rw [maxScore_append_one, ← hxs]
      exact max_eq_left hle
    unfold firstMax
    rw [List.find?_append, hm2]
    unfold firstMax at h
    rw [h]
    simp [hlt]

theorem groupOf_append_one (pre : List CrawlRec) (r : CrawlRec) (k : RecIdKey) :
    groupOf (pre ++ [r]) k =
      groupOf pre k ++ (if recIdKey r = k then [r] else []) := by
  by_cases h : recIdKey r = k <;> simp [groupOf, List.filter_append, h]

theorem exists_first_match {acc : List CrawlRec} {k : RecIdKey}
    (h : acc.any (fun x => decide (recIdKey x = k)) = true) :
    ∃ a x b, acc = a ++ x :: b ∧ recIdKey x = k ∧ ∀ y ∈ a, recIdKey y ≠ k := by
  induction acc with
  | nil => simp at h
  | cons c cs ih =>
    by_cases hc : recIdKey c = k
    · exact ⟨[], c, cs, rfl, hc, by intro y hy; cases hy⟩
    · have h' : cs.any (fun x => decide (recIdKey x = k)) = true := by
        simp only [List.any_cons, hc, decide_False, Bool.false_or] at h
        exact h
      obtain ⟨a, x, b, hacc, hxk, ha⟩ := ih h'
      exact ⟨c :: a, x, b, by simp [hacc], hxk, by
        intro y hy
        rcases List.mem_cons.mp hy with h1 | h1
        · subst h1; exact hc
        · exact ha y h1⟩

theorem replaceFirst_decomp {r : CrawlRec} {a : List CrawlRec} {x : CrawlRec}
    {b : List CrawlRec} (ha : ∀ y ∈ a, recIdKey y ≠ recIdKey r)
    (hx : recIdKey x = recIdKey r) :
    replaceFirstByKey r (a ++ x :: b) =
      a ++ (if crawlScore x < crawlScore r then r else x) :: b := by
  induction a with
  | nil => simp [replaceFirstByKey, hx]
  | cons c cs ih =>
    have hc : recIdKey c ≠ recIdKey r := ha c (List.mem_cons_self c cs)
    simp only [List.cons_append, replaceFirstByKey, hc, if_false]
    exact congrArg (List.cons c) (ih (fun y hy => ha y (List.mem_cons_of_mem c hy)))

theorem key_ne_of_nodup_decomp {a : List CrawlRec} {x : CrawlRec} {b : List CrawlRec}
    (hnd : ((a ++ x :: b).map recIdKey).Nodup) {y : CrawlRec}
    (hy : y ∈ a ∨ y ∈ b) : recIdKey y ≠ recIdKey x := by
  rw [List.map_append, List.map_cons] at hnd
  rcases hy with hy | hy
  · intro heq
    have h1 : recIdKey y ∈ a.map recIdKey := List.mem_map_of_mem recIdKey hy
    have h2 : recIdKey y ∈ recIdKey x :: b.map recIdKey := by
      rw [heq]; exact List.mem_cons_self _ _
    exact (List.disjoint_of_nodup_append hnd) h1 h2
  · intro heq
    have h3 : (recIdKey x :: b.map recIdKey).Nodup := (List.nodup_append.mp hnd).2.1
    have h4 : recIdKey x ∉ b.map recIdKey := (List.nodup_cons.mp h3).1
    exact h4 (heq ▸ List.mem_map_of_mem recIdKey hy)

theorem dedupStep_inv {pre acc : List CrawlRec} (r : CrawlRec) (h : DedupInv pre acc) :
    DedupInv (pre ++ [r]) (dedupStep acc r) := by
  obtain ⟨hnd, hfm, hcov⟩ := h
  unfold dedupStep
  by_cases hin : acc.any (fun x => decide (recIdKey x = recIdKey r)) = true
  · simp only [hin, if_true]
    obtain ⟨a, x, b, hacc, hxk, ha⟩ := exists_first_match hin
    subst hacc
    rw [replaceFirst_decomp ha hxk]
    have hzk : recIdKey (if crawlScore x < crawlScore r then r else x) = recIdKey r := by
      split
      · rfl
      · exact hxk
    refine ⟨?_, ?_, ?_⟩
    · have hkeys : ((a ++ (if crawlScore x < crawlScore r then r else x) :: b).map recIdKey)
          = ((a ++ x :: b).map recIdKey) := by
        simp [hzk, hxk]
      rw [hkeys]
      exact hnd
    · intro r' hr'
      rcases List.mem_append.mp hr' with hr1 | hr1
      · have hne : recIdKey r' ≠ recIdKey r := ha r' hr1
        rw [groupOf_append_one]
        have : (if recIdKey r = recIdKey r' then [r] else []) = [] := by
          rw [if_neg (fun h => hne h.symm)]
        rw [this, List.append_nil]
        exact hfm r' (List.mem_append.mpr (Or.inl hr1))
      · rcases List.mem_cons.mp hr1 with hr2 | hr2
        · subst hr2
          rw [hzk, groupOf_append_one, if_pos rfl]
          have hfx : firstMax (groupOf pre (recIdKey r)) = some x := by
            have := hfm x (List.mem_append.mpr (Or.inr (List.mem_cons_self x b)))
            rwa [hxk] at this
          exact firstMax_append_one r hfx
        · have hne : recIdKey r' ≠ recIdKey x := key_ne_of_nodup_decomp hnd (Or.inr hr2)
          have hne' : recIdKey r' ≠ recIdKey r := hxk ▸ hne
          rw [groupOf_append_one]
          have : (if recIdKey r = recIdKey r' then [r] else []) = [] := by
            rw [if_neg (fun h => hne' h.symm)]
          rw [this, List.append_nil]
          exact hfm r' (List.mem_append.mpr (Or.inr (List.mem_cons_of_mem x hr2)))
    · intro k hk
      by_cases hkr : k = recIdKey r
      · subst hkr
        exact ⟨(if crawlScore x < crawlScore r then r else x),
          List.mem_append.mpr (Or.inr (List.mem_cons_self _ _)), hzk⟩
      · rw [groupOf_append_one] at hk
        have : (if recIdKey r = k then [r] else []) = [] := by
          rw [if_neg (fun h => hkr h.symm)]
        rw [this, List.append_nil] at hk
        obtain ⟨x', hx', hkx'⟩ := hcov k hk
        rcases List.mem_append.mp hx' with h1 | h1
        · exact ⟨x', List.mem_append.mpr (Or.inl h1), hkx'⟩
        · rcases List.mem_cons.mp h1 with h2 | h2
          · subst h2
            exact absurd (hxk ▸ hkx' : recIdKey r = k) (fun h => hkr h.symm)
          · exact ⟨x', List.mem_append.mpr
              (Or.inr (List.mem_cons_of_mem _ h2)), hkx'⟩
  · have hany : acc.any (fun x => decide (recIdKey x = recIdKey r)) = false := by
      revert hin
      cases acc.any (fun x => decide (recIdKey x = recIdKey r)) <;> simp
    have hnotin : ∀ x ∈ acc, recIdKey x ≠ recIdKey r := by
      intro x hx
      have := List.any_eq_false.mp hany x hx
      simpa using this
    simp only [hany, Bool.false_eq_true, if_false]
    refine ⟨?_, ?_, ?_⟩
    · rw [List.map_append, List.map_singleton]
      rw [List.nodup_append]
      refine ⟨hnd, List.nodup_singleton _, ?_⟩
      intro ky hky
      obtain ⟨y, hy, hyk⟩ := List.mem_map.mp hky
      intro hmem
      have : ky = recIdKey r := by simpa using hmem
      exact hnotin y hy (hyk.symm ▸ this ▸ rfl)
    · intro r' hr'
      rcases List.mem_append.mp hr' with hr1 | hr1
      · have hne : recIdKey r' ≠ recIdKey r := hnotin r' hr1
        rw [groupOf_append_one]
        have : (if recIdKey r = recIdKey r' then [r] else []) = [] := by
          rw [if_neg (fun h => hne h.symm)]
        rw [this, List.append_nil]
        exact hfm r' hr1
      · have hr2 : r' = r := by simpa using hr1
        subst hr2
        rw [groupOf_append_one, if_pos rfl]
        have hempty : groupOf pre (recIdKey r') = [] := by
          by_contra hne
          obtain ⟨x, hx, hkx⟩ := hcov _ hne
          exact hnotin x hx hkx
        rw [hempty, List.nil_append]
        exact firstMax_singleton r'
    · intro k hk
      by_cases hkr : k = recIdKey r
      · exact ⟨r, List.mem_append.mpr (Or.inr (List.mem_singleton.mpr rfl)), hkr.symm⟩
      · rw [groupOf_append_one] at hk
        have : (if recIdKey r = k then [r] else []) = [] := by
          rw [if_neg (fun h => hkr h.symm)]
        rw [this, List.append_nil] at hk
        obtain ⟨x, hx, hkx⟩ := hcov k hk
        exact ⟨x, List.mem_append.mpr (Or.inl hx), hkx⟩

theorem dedup_fold_inv (l : List CrawlRec) :
    ∀ (pre acc : List CrawlRec), DedupInv pre acc →
      DedupInv (pre ++ l) (l.foldl dedupStep acc) := by
  induction l with
  | nil => intro pre acc h; simpa using h
  | cons r l ih =>
    intro pre acc h
    have h1 := ih (pre ++ [r]) (dedupStep acc r) (dedupStep_inv r h)
    simpa [List.append_assoc] using h1

theorem dedup_inv (l : List CrawlRec) : DedupInv l (dedupByKey l) := by
  have h0 : DedupInv [] [] := by
    refine ⟨List.nodup_nil, ?_, ?_⟩
    · intro r hr; cases hr
    · intro k hk; simp [groupOf] at hk
  have := dedup_fold_inv l [] [] h0
  simpa [dedupByKey] using this

theorem dedup_foldl_of_nodup (l : List CrawlRec) :
    ∀ acc : List CrawlRec, ((acc ++ l).map recIdKey).Nodup →
      l.foldl dedupStep acc = acc ++ l := by
  induction l with
  | nil => intro acc _; simp
  | cons r l ih =>
    intro acc hnd
    have hne : ∀ x ∈ acc, recIdKey x ≠ recIdKey r := by
      intro x hx
      exact key_ne_of_nodup_decomp hnd (Or.inl hx)
    have hany : acc.any (fun x => decide (recIdKey x = recIdKey r)) = false := by
      apply List.any_eq_false.mpr
      intro x hx
      simpa using hne x hx
    have hstep : dedupStep acc r = acc ++ [r] := by
      unfold dedupStep
      rw [hany]
      simp
    show List.foldl dedupStep (dedupStep acc r) l = acc ++ r :: l
    rw [hstep, ih (acc ++ [r]) (by simpa [List.append_assoc] using hnd)]
    simp

/-- C6: the dedup-by-identity-key pass of `crawl_advisors` keeps, in
each key group, the first record attaining the group's highest
completeness score (so strictly higher scores win and ties keep the
first-seen record), it is idempotent, and on two records sharing a
source URL where only the second has a non-empty education list it
keeps the second. -/
theorem C6_dedup_merge :
    (∀ l : List CrawlRec, dedupByKey (dedupByKey l) = dedupByKey l) ∧
    (∀ (l : List CrawlRec) (r : CrawlRec), r ∈ dedupByKey l →
      firstMax (groupOf l (recIdKey r)) = some r) ∧
    dedupByKey [jdoeNoEdu, jdoeWithEdu] = [jdoeWithEdu] := by
  refine ⟨?_, ?_, ?_⟩
  · intro l
    have hnd := (dedup_inv l).1
    unfold dedupByKey
    have := dedup_foldl_of_nodup (dedupByKey l) [] (by simpa using hnd)
    simpa [dedupByKey] using this
  · intro l r hr
    exact (dedup_inv l).2.1 r hr
  · decide

/-- C6 (witness): applying the theorem to the two concrete records
sharing a source URL shows the surviving record is the education-rich
one. -/
theorem C6_dedup_merge_witness :
    firstMax (groupOf [jdoeNoEdu, jdoeWithEdu] (recIdKey jdoeWithEdu)) =
      some jdoeWithEdu :=
  C6_dedup_merge.2.1 [jdoeNoEdu, jdoeWithEdu] jdoeWithEdu (by decide)

/-- C4 (counterexample): the URL validator does not return null for
`"https://www.linkedin.com/in/ab"`; the slug `"ab"` has length 2, which
passes the `len(profile_slug) < 2` check, so the URL is accepted. -/
theorem C4_counterexample :
    validateLinkedinUrl (some "https://www.linkedin.com/in/ab") =
      some "https://www.linkedin.com/in/ab" ∧
    validateLinkedinUrl (some "https://www.linkedin.com/in/ab") ≠ Option.none := by
  refine ⟨by decide, by decide⟩

/-- C4 (amended): the validator rejects
`"https://www.linkedin.com/in/test123"` (deny-listed token `test`),
accepts `"https://www.linkedin.com/in/ab"` (slug of length exactly 2)
and `"https://www.linkedin.com/in/jane-doe-87234"` unchanged, and in
general rejects any URL whose extracted slug is shorter than 2
characters or contains a deny-listed placeholder token. -/
theorem C4_url_validator_amended :
    validateLinkedinUrl (some "https://www.linkedin.com/in/test123") = Option.none ∧
    validateLinkedinUrl (some "https://www.linkedin.com/in/ab") =
      some "https://www.linkedin.com/in/ab" ∧
    validateLinkedinUrl (some "https://www.linkedin.com/in/jane-doe-87234") =
      some "https://www.linkedin.com/in/jane-doe-87234" ∧
    ∀ url slug, linkedinSlugOf (pyStrip url) = some slug →
      (slug.length < 2 ∨ fakePatterns.any (fun p => pyContains p (pyLower slug)) = true) →
      validateLinkedinUrl (some url) = Option.none := by
  refine ⟨by decide, by decide, by decide, ?_⟩
  intro url slug hslug hbad
  unfold validateLinkedinUrl
  by_cases h0 : url = ""
  · simp [h0]
  · simp only [h0, if_false]
    by_cases hpre : linkedinPrefixes.any (fun p => pyStartsWith p (pyStrip url)) = true
    · simp only [hpre, not_true, if_false, hslug]
      rcases hbad with hlen | hfake
      · simp [hlen]
      · by_cases hempty : slug = "" ∨ slug.length < 2
        · simp [hempty]
        · simp [hempty, hfake]
    · simp [hpre]

/-- C4 (witness for the amended theorem): a concrete URL with a
one-character slug is rejected. -/
theorem C4_url_validator_amended_witness :
    validateLinkedinUrl (some "https://www.linkedin.com/in/x") = Option.none :=
  C4_url_validator_amended.2.2.2 "https://www.linkedin.com/in/x" "x" (by decide)
    (Or.inl (by decide))

/-- C2 (counterexample): a raw item with an empty `sources` list and a
model-supplied `uncertainty` of `"low"` is normalized to a record with
empty `sources` and `uncertainty = "low"`, not `"high"`. -/
theorem C2_counterexample :
    ((normalizeRecommendations (fun _ _ _ => Option.none)
        (PyVal.list [PyVal.dict
          [("name", PyVal.str "Ann"), ("sources", PyVal.list []),
           ("uncertainty", PyVal.str "low")]])).map
        (fun r => (r.sources, r.uncertainty)) = [([], "low")]) ∧
    ("low" : String) ≠ "high" := by
  refine ⟨by decide, by decide⟩

/-- C2 (amended): `_normalize_recommendations` sets `uncertainty` to
the raw item's trimmed value, defaulting to `"medium"` when absent or
blank, independently of `sources`; only the engine's synthetic fallback
record ties empty sources to a high-uncertainty tag, and its tag is the
string `"high: no sources available"`, which begins with `"high"` but
is not exactly `"high"`. -/
theorem C2_uncertainty_amended :
    (∀ (lookup : String → String → String → Option String) (items : PyVal)
        (r : TargetRec), r ∈ normalizeRecommendations lookup items →
      r.uncertainty ≠ "" ∧
      ∃ kvs, PyVal.dict kvs ∈ itemsOf items ∧
        r.uncertainty =
          (if pyStrField kvs "uncertainty" = "" then "medium"
           else pyStrField kvs "uncertainty")) ∧
    (∀ field : String, (syntheticFallbackRec field).sources = [] ∧
      (syntheticFallbackRec field).uncertainty = "high: no sources available" ∧
      pyStartsWith "high" (syntheticFallbackRec field).uncertainty = true ∧
      (syntheticFallbackRec field).uncertainty ≠ "high") := by
  constructor
  · intro lookup items r hr
    obtain ⟨x, hx, hfx⟩ := List.mem_filterMap.mp hr
    match x with
    | PyVal.dict kvs =>
      by_cases hname : pyStrField kvs "name" = ""
      · simp [normalizeItem, hname] at hfx
      · simp only [normalizeItem, hname, if_neg, if_false, Option.some.injEq] at hfx
        subst hfx
        refine ⟨?_, kvs, hx, rfl⟩
        by_cases hu : pyStrField kvs "uncertainty" = "" <;> simp [hu]
  · intro field
    refine ⟨rfl, rfl, ?_, ?_⟩
    · show pyStartsWith "high" "high: no sources available" = true
      decide
    · show ("high: no sources available" : String) ≠ "high"
      decide

/-- C2 (witness for the amended theorem): the concrete record
normalized from an item with no uncertainty field has the non-empty
default uncertainty `"medium"`. -/
theorem C2_uncertainty_amended_witness :
    ({ name := "Ann", position := "", field := ""
       linkedin_url := some "https://www.linkedin.com/search/results/people/?keywords=Ann"
       match_score := 70, match_reason := "", common_interests := ""
       evidence := [], sources := [], uncertainty := "medium" } : TargetRec).uncertainty ≠ "" :=
  (C2_uncertainty_amended.1 (fun _ _ _ => Option.none)
    (PyVal.list [PyVal.dict [("name", PyVal.str "Ann")]])
    { name := "Ann", position := "", field := ""
      linkedin_url := some "https://www.linkedin.com/search/results/people/?keywords=Ann"
      match_score := 70, match_reason := "", common_interests := ""
      evidence := [], sources := [], uncertainty := "medium" } (by decide)).1

/-- C3 (counterexample): an item with the valid integer `match_score`
0 is not clamped to 0; the `match_score or 70` fallback rewrites it to
70. -/
theorem C3_counterexample :
    ((normalizeRecommendations (fun _ _ _ => Option.none)
        (PyVal.list [PyVal.dict
          [("name", PyVal.str "Ann"), ("match_score", PyVal.int 0)]])).map
        TargetRec.match_score = [70]) ∧
    ¬ ((normalizeRecommendations (fun _ _ _ => Option.none)
        (PyVal.list [PyVal.dict
          [("name", PyVal.str "Ann"), ("match_score", PyVal.int 0)]])).map
        TargetRec.match_score = [max 0 (min 0 100)]) := by
  refine ⟨by decide, by decide⟩

/-- C3 (amended): every returned record's `match_score` lies in
[1, 100] ⊆ [0, 100]; a valid score is clamped to [0, 100] except that
any score clamping to 0 (zero, negative, missing or invalid) is
replaced by the fixed default 70. -/
theorem C3_match_score_amended :
    ∀ (lookup : String → String → String → Option String) (items : PyVal)
      (r : TargetRec), r ∈ normalizeRecommendations lookup items →
      1 ≤ r.match_score ∧ r.match_score ≤ 100 ∧
      ∃ kvs, PyVal.dict kvs ∈ itemsOf items ∧
        r.match_score =
          (if max 0 (min (pySafeInt (pyDictGet kvs "match_score" (PyVal.int 0)) 0) 100) = 0
           then 70
           else max 0 (min (pySafeInt (pyDictGet kvs "match_score" (PyVal.int 0)) 0) 100)) := by
  intro lookup items r hr
  obtain ⟨x, hx, hfx⟩ := List.mem_filterMap.mp hr
  match x with
  | PyVal.dict kvs =>
    by_cases hname : pyStrField kvs "name" = ""
    · simp [normalizeItem, hname] at hfx
    · simp only [normalizeItem, hname, if_neg, if_false, Option.some.injEq] at hfx
      subst hfx
      refine ⟨?_, ?_, kvs, hx, rfl⟩
      · by_cases h0 : max 0 (min (pySafeInt (pyDictGet kvs "match_score" (PyVal.int 0)) 0) 100) = 0
        · simp [h0]
        · simp only [h0, if_false]
          omega
      · by_cases h0 : max 0 (min (pySafeInt (pyDictGet kvs "match_score" (PyVal.int 0)) 0) 100) = 0
        · simp [h0]
        · simp only [h0, if_false]
          omega

/-- C3 (witness for the amended theorem): the concrete record produced
from a raw score of 250 has `match_score` 100, inside [1, 100]. -/
theorem C3_match_score_amended_witness :
    1 ≤ ({ name := "Bob", position := "", field := ""
           linkedin_url := some "https://www.linkedin.com/search/results/people/?keywords=Bob"
           match_score := 100, match_reason := "", common_interests := ""
           evidence := [], sources := [], uncertainty := "medium" } : TargetRec).match_score ∧
    ({ name := "Bob", position := "", field := ""
       linkedin_url := some "https://www.linkedin.com/search/results/people/?keywords=Bob"
       match_score := 100, match_reason := "", common_interests := ""
       evidence := [], sources := [], uncertainty := "medium" } : TargetRec).match_score ≤ 100 :=
  have h := C3_match_score_amended (fun _ _ _ => Option.none)
    (PyVal.list [PyVal.dict
      [("name", PyVal.str "Bob"), ("match_score", PyVal.int 250)]])
    { name := "Bob", position := "", field := ""
      linkedin_url := some "https://www.linkedin.com/search/results/people/?keywords=Bob"
      match_score := 100, match_reason := "", common_interests := ""
      evidence := [], sources := [], uncertainty := "medium" } (by decide)
  ⟨h.1, h.2.1⟩

theorem pyDictGet_pySet_same (kvs : List (String × PyVal)) (k : String) (v dflt : PyVal) :
    pyDictGet (pySet kvs k v) k dflt = v := by
  induction kvs with
  | nil => simp [pySet, pyDictGet]
  | cons kv rest ih =>
    by_cases h : kv.1 == k
    · simp [pySet, h, pyDictGet]
    · simp only [pySet, h, Bool.false_eq_true, if_false]
      simp only [pyDictGet, List.find?]
      rw [show (kv.1 == k) = false from by simpa using h]
      exact ih

theorem pyDictGet_pySet_ne (kvs : List (String × PyVal)) {k' k : String} (h : k' ≠ k)
    (v dflt : PyVal) : pyDictGet (pySet kvs k' v) k dflt = pyDictGet kvs k dflt := by
  induction kvs with
  | nil =>
    simp only [pySet, pyDictGet, List.find?]
    rw [show (k' == k) = false from by simpa using h]
  | cons kv rest ih =>
    by_cases hkv : kv.1 == k'
    · have hkv' : kv.1 = k' := by simpa using hkv
      simp only [pySet, hkv, if_true, pyDictGet, List.find?]
      rw [show (k' == k) = false from by simpa using h,
        show (kv.1 == k) = false from by simp [hkv']; exact h]
    · simp only [pySet, hkv, Bool.false_eq_true, if_false, pyDictGet, List.find?]
      cases hc : kv.1 == k
      · exact ih
      · rfl

theorem pyDictGet_pySetDefault_ne (kvs : List (String × PyVal)) {k' k : String}
    (h : k' ≠ k) (v dflt : PyVal) :
    pyDictGet (pySetDefault kvs k' v) k dflt = pyDictGet kvs k dflt := by
  induction kvs with
  | nil =>
    simp only [pySetDefault, pyDictGet, List.find?]
    rw [show (k' == k) = false from by simpa using h]
  | cons kv rest ih =>
    by_cases hkv : kv.1 == k'
    · simp [pySetDefault, hkv]
    · simp only [pySetDefault, hkv, Bool.false_eq_true, if_false, pyDictGet, List.find?]
      cases hc : kv.1 == k
      · exact ih
      · rfl

theorem pyDictGet_foldl_setDefault_ne (ks : List String) (kvs : List (String × PyVal))
    {k : String} (h : k ∉ ks) (dflt : PyVal) :
    pyDictGet (ks.foldl (fun acc k' => pySetDefault acc k' (.str "")) kvs) k dflt =
      pyDictGet kvs k dflt := by
  induction ks generalizing kvs with
  | nil => rfl
  | cons k' ks ih =>
    have h1 : k ∉ ks := fun hk => h (List.mem_cons_of_mem k' hk)
    have h2 : k' ≠ k := fun he => h (he ▸ List.mem_cons_self k' ks)
    show pyDictGet (ks.foldl _ (pySetDefault kvs k' (.str ""))) k dflt = _
    rw [ih (pySetDefault kvs k' (.str "")) h1, pyDictGet_pySetDefault_ne kvs h2]

set_option maxHeartbeats 1000000 in
/-- C10: whatever the model returns (dict, list or unparseable text),
a profile returned by `llm_extract` carries exactly the `source_url`
argument (any model-supplied value is overwritten), and when the model
output lacks a truthy name the profile's name is the `fallback_name`
argument. -/
theorem C10_source_url_and_name :
    ∀ (pt su fb : String) (resp : LlmRaw) (p : AdvisorProfile),
      llmExtract pt su fb resp = .ok p →
        p.source_url = PyVal.str su ∧
        (pyTruthy (modelNameOf resp) = false → p.name = PyVal.str fb) := by
  intro pt su fb resp p hp
  cases resp with
  | unparseable =>
    have h1 : p = heuristicProfile pt su fb := by
      simpa [llmExtract] using hp.symm
    subst h1
    exact ⟨rfl, fun _ => rfl⟩
  | parsed v0 =>
    simp only [llmExtract] at hp
    rcases hobj : llmObjOf v0 with _ | b | n | s | xs | kvs0 <;> rw [hobj] at hp
    case dict =>
      simp only [llmExtractObj, llmExtractDict] at hp
      by_cases hall : ((llmObjFixed su fb kvs0).all
          (fun kv => advisorFieldNames.contains kv.1)) = true
      · rw [if_pos hall] at hp
        have hp' := Except.ok.inj hp
        subst hp'
        constructor
        · show pyDictGet (llmObjFixed su fb kvs0) "source_url" PyVal.none = PyVal.str su
          unfold llmObjFixed
          rw [pyDictGet_foldl_setDefault_ne llmSetDefaultKeys _ (by decide) PyVal.none]
          exact pyDictGet_pySet_same _ _ _ _
        · intro hname
          have hname0 : pyTruthy (pyDictGet kvs0 "name" PyVal.none) = false := by
            simpa [modelNameOf, hobj] using hname
          show pyDictGet (llmObjFixed su fb kvs0) "name" PyVal.none = PyVal.str fb
          unfold llmObjFixed
          rw [pyDictGet_foldl_setDefault_ne llmSetDefaultKeys _ (by decide) PyVal.none,
            pyDictGet_pySet_ne _ (by decide) _ _, hname0]
          rw [if_neg (by simp)]
          exact pyDictGet_pySet_same _ _ _ _
      · rw [if_neg hall] at hp
        cases hp
    all_goals
      have h1 : p = heuristicProfile pt su fb := by
        simpa [llmExtractObj] using hp.symm
      subst h1
      exact ⟨rfl, fun _ => rfl⟩

/-- C10 (witness): for unparseable model output the heuristic profile
carries the source URL and fallback name arguments. -/
theorem C10_source_url_and_name_witness :
    (heuristicProfile "" "https://u.edu/p" "Fallback").source_url =
        PyVal.str "https://u.edu/p" ∧
    (heuristicProfile "" "https://u.edu/p" "Fallback").name = PyVal.str "Fallback" :=
  have h := C10_source_url_and_name "" "https://u.edu/p" "Fallback" LlmRaw.unparseable
    (heuristicProfile "" "https://u.edu/p" "Fallback") rfl
  ⟨h.1, h.2 rfl⟩

/-- C5 (code bug): on unparseable model output for the John Smith page
text, the heuristic fallback returns name `"John Smith"` and evidence
`rawText[:300]` as specified, but its email is the empty string even
though the text contains `john.smith@example.org`: the pattern
`r"[A-Za-z0-9._%+-]+@[A-Za-z0-9.-]+\\.[A-Za-z]{2,}"` is a raw string
whose `\\` demands a literal backslash character in the text, so it
can never match an ordinary email address. -/
theorem C5_heuristic_email_bug :
    llmExtract johnText "https://u.edu/jsmith" "John Smith" LlmRaw.unparseable =
      Except.ok (heuristicProfile johnText "https://u.edu/jsmith" "John Smith") ∧
    (heuristicProfile johnText "https://u.edu/jsmith" "John Smith").name =
      PyVal.str "John Smith" ∧
    (heuristicProfile johnText "https://u.edu/jsmith" "John Smith").research =
      PyVal.str (pyTake 300 johnText) ∧
    pyContains "john.smith@example.org" johnText = true ∧
    reSearchBuggyEmail johnText = "" ∧
    (heuristicProfile johnText "https://u.edu/jsmith" "John Smith").email =
      PyVal.str "" ∧
    ("" : String) ≠ "john.smith@example.org" := by
  refine ⟨rfl, rfl, rfl, by decide, by decide, ?_, by decide⟩
  show PyVal.str (reSearchBuggyEmail johnText) = PyVal.str ""
  exact congrArg PyVal.str (by decide)

theorem pyDictGet_normListKey_ne (kvs : List (String × PyVal)) {k' k : String}
    (h : k' ≠ k) (dflt : PyVal) :
    pyDictGet (normListKey kvs k') k dflt = pyDictGet kvs k dflt := by
  unfold normListKey
  cases pyDictGet kvs k' (.list []) with
  | none => exact pyDictGet_pySet_ne kvs h _ dflt
  | bool b => exact pyDictGet_pySet_ne kvs h _ dflt
  | int n => exact pyDictGet_pySet_ne kvs h _ dflt
  | str s => exact pyDictGet_pySet_ne kvs h _ dflt
  | list xs => rfl
  | dict d => exact pyDictGet_pySet_ne kvs h _ dflt

theorem pyDictGet_foldl_normList_ne (ks : List String) (kvs : List (String × PyVal))
    {k : String} (h : k ∉ ks) (dflt : PyVal) :
    pyDictGet (ks.foldl normListKey kvs) k dflt = pyDictGet kvs k dflt := by
  induction ks generalizing kvs with
  | nil => rfl
  | cons k' ks ih =>
    have h1 : k ∉ ks := fun hk => h (List.mem_cons_of_mem k' hk)
    have h2 : k' ≠ k := fun he => h (he ▸ List.mem_cons_self k' ks)
    show pyDictGet (ks.foldl normListKey (normListKey kvs k')) k dflt = _
    rw [ih (normListKey kvs k') h1, pyDictGet_normListKey_ne kvs h2]

theorem cleanItems_sound :
    ∀ (items cleaned : List PyVal), cleanItems items = .ok cleaned →
      ∀ it ∈ cleaned, ∃ kvs s, it = PyVal.dict kvs ∧
        pyDictGet kvs "name" PyVal.none = PyVal.str s ∧ isPersonName s = true := by
  intro items
  induction items with
  | nil =>
    intro cleaned hc it hit
    have : cleaned = [] := by simpa [cleanItems] using hc.symm
    subst this
    cases hit
  | cons it0 rest ih =>
    intro cleaned hc it hit
    match it0 with
    | PyVal.dict kvs =>
      simp only [cleanItems] at hc
      by_cases htr : pyTruthy (pyDictGet kvs "name" PyVal.none) = true
      · rw [if_pos htr] at hc
        match hnv : pyDictGet kvs "name" PyVal.none with
        | PyVal.str s =>
          rw [hnv] at hc
          simp only [] at hc
          by_cases hs0 : pyStrip s = ""
          · rw [if_pos hs0] at hc
            exact ih cleaned hc it hit
          · rw [if_neg hs0] at hc
            by_cases hps : isPersonName s = true
            · rw [if_neg (by simp [hps])] at hc
              match htail : cleanItems rest with
              | Except.ok tail =>
                rw [htail] at hc
                simp only [] at hc
                have hc' := Except.ok.inj hc
                subst hc'
                rcases List.mem_cons.mp hit with h1 | h1
                · refine ⟨_, s, h1, ?_, hps⟩
                  rw [pyDictGet_foldl_normList_ne cleanListKeys _ (by decide) PyVal.none,
                    pyDictGet_foldl_setDefault_ne cleanScalarKeys _ (by decide) PyVal.none]
                  exact hnv
                · exact ih tail htail it h1
              | Except.error e =>
                rw [htail] at hc
                simp only [] at hc
                cases hc
            · rw [if_pos (by simpa using hps)] at hc
              exact ih cleaned hc it hit
        | PyVal.none => rw [hnv] at hc; simp only [] at hc; cases hc
        | PyVal.bool b => rw [hnv] at hc; simp only [] at hc; cases hc
        | PyVal.int n => rw [hnv] at hc; simp only [] at hc; cases hc
        | PyVal.list xs => rw [hnv] at hc; simp only [] at hc; cases hc
        | PyVal.dict d => rw [hnv] at hc; simp only [] at hc; cases hc
      · rw [if_neg htr] at hc
        exact ih cleaned hc it hit
    | PyVal.none => exact ih cleaned (by simpa [cleanItems] using hc) it hit
    | PyVal.bool b => exact ih cleaned (by simpa [cleanItems] using hc) it hit
    | PyVal.int n => exact ih cleaned (by simpa [cleanItems] using hc) it hit
    | PyVal.str s => exact ih cleaned (by simpa [cleanItems] using hc) it hit
    | PyVal.list xs => exact ih cleaned (by simpa [cleanItems] using hc) it hit

theorem cleanProfiles_result (profiles : List PyVal) (resp : PyOutcome PyVal) :
    cleanProfilesWithGemini profiles resp = profiles ∨
    ∃ items cleaned, cleanItems items = .ok cleaned ∧ cleaned ≠ [] ∧
      cleanProfilesWithGemini profiles resp = cleaned := by
  unfold cleanProfilesWithGemini
  by_cases hp : profiles.isEmpty
  · simp [hp]
  · rw [if_neg hp]
    match resp with
    | .exn => exact Or.inl rfl
    | .ok v =>
      match hd : cleanDataOf v with
      | PyVal.list items =>
        match hc : cleanItems items with
        | Except.ok cleaned =>
          by_cases hce : cleaned.isEmpty
          · exact Or.inl (by simp [hd, hc, hce])
          · exact Or.inr ⟨items, cleaned, hc, by simpa using hce, by simp [hd, hc, hce]⟩
        | Except.error e => exact Or.inl (by simp [hd, hc])
      | PyVal.none => exact Or.inl (by simp [hd])
      | PyVal.bool b => exact Or.inl (by simp [hd])
      | PyVal.int n => exact Or.inl (by simp [hd])
      | PyVal.str s => exact Or.inl (by simp [hd])
      | PyVal.dict d => exact Or.inl (by simp [hd])

/-- C8: the batch cleaning pass is advisory: it returns the input
unchanged when its model call raises, when the parsed response is not
a JSON list, or when its cleaned output is empty; in every case the
result is the unchanged input or a non-empty list each of whose kept
records is a dict whose name is a plausible person name (non-blank
after trimming, no organizational token, no digit, trimmed length in
[2, 80]). -/
theorem C8_clean_profiles_advisory :
    (∀ profiles : List PyVal, cleanProfilesWithGemini profiles .exn = profiles) ∧
    (∀ (profiles : List PyVal) (v : PyVal),
      (∀ items, cleanDataOf v ≠ PyVal.list items) →
      cleanProfilesWithGemini profiles (.ok v) = profiles) ∧
    (∀ (profiles items : List PyVal), cleanItems items = .ok [] →
      cleanProfilesWithGemini profiles (.ok (PyVal.list items)) = profiles) ∧
    (∀ (profiles : List PyVal) (resp : PyOutcome PyVal),
      cleanProfilesWithGemini profiles resp = profiles ∨
      (cleanProfilesWithGemini profiles resp ≠ [] ∧
       ∀ it ∈ cleanProfilesWithGemini profiles resp, ∃ kvs s,
         it = PyVal.dict kvs ∧ pyDictGet kvs "name" PyVal.none = PyVal.str s ∧
         isPersonName s = true)) := by
  refine ⟨?_, ?_, ?_, ?_⟩
  · intro profiles
    unfold cleanProfilesWithGemini
    by_cases h : profiles.isEmpty <;> simp [h]
  · intro profiles v hv
    unfold cleanProfilesWithGemini
    by_cases h : profiles.isEmpty
    · simp [h]
    · rw [if_neg h]
      match hd : cleanDataOf v with
      | PyVal.list items => exact absurd hd (hv items)
      | PyVal.none => simp [hd]
      | PyVal.bool b => simp [hd]
      | PyVal.int n => simp [hd]
      | PyVal.str s => simp [hd]
      | PyVal.dict d => simp [hd]
  · intro profiles items hitems
    unfold cleanProfilesWithGemini
    by_cases h : profiles.isEmpty
    · simp [h]
    · rw [if_neg h]
      simp [cleanDataOf, hitems]
  · intro profiles resp
    rcases cleanProfiles_result profiles resp with h | ⟨items, cleaned, hc, hne, heq⟩
    · exact Or.inl h
    · refine Or.inr ⟨?_, ?_⟩
      · rw [heq]; exact hne
      · intro it hit
        rw [heq] at hit
        exact cleanItems_sound items cleaned hc it hit

/-- C8 (witness): a non-list model response (a bare string) leaves a
concrete one-element profile list unchanged. -/
theorem C8_clean_profiles_advisory_witness :
    cleanProfilesWithGemini [PyVal.dict [("name", PyVal.str "Ann Lee")]]
      (.ok (PyVal.str "garbage")) = [PyVal.dict [("name", PyVal.str "Ann Lee")]] :=
  C8_clean_profiles_advisory.2.1 [PyVal.dict [("name", PyVal.str "Ann Lee")]]
    (PyVal.str "garbage") (fun items h => by cases h)

theorem takeWhile_idem (p : Char → Bool) (l : List Char) :
    (l.takeWhile p).takeWhile p = l.takeWhile p := by
  induction l with
  | nil => rfl
  | cons c cs ih =>
    by_cases h : p c
    · simp [List.takeWhile_cons, h, ih]
    · simp [List.takeWhile_cons, h]

theorem mem_takeWhile_prop {p : Char → Bool} {l : List Char} {c : Char}
    (h : c ∈ l.takeWhile p) : p c = true := by
  induction l with
  | nil => cases h
  | cons d ds ih =>
    by_cases hd : p d
    · rw [List.takeWhile_cons, if_pos hd] at h
      rcases List.mem_cons.mp h with h1 | h1
      · subst h1; exact hd
      · exact ih h1
    · rw [List.takeWhile_cons, if_neg hd] at h
      cases h

theorem urlPath_stripFragment (s : String) :
    urlPath (stripFragment s) = urlPath s := by
  unfold urlPath stripFragment
  show (match splitFirst "://".data ((s.data.takeWhile _).takeWhile _) with
      | some (_, rest) => _
      | Option.none => _) = _
  rw [takeWhile_idem]

theorem mem_of_dedupByUrl {l : List (String × String)} {seen : List String}
    {p : String × String} (h : p ∈ dedupByUrl l seen) : p ∈ l := by
  induction l generalizing seen with
  | nil => cases h
  | cons q rest ih =>
    unfold dedupByUrl at h
    by_cases hs : seen.contains q.2
    · rw [if_pos hs] at h
      exact List.mem_cons_of_mem q (ih h)
    · rw [if_neg hs] at h
      rcases List.mem_cons.mp h with h1 | h1
      · exact h1 ▸ List.mem_cons_self q rest
      · exact List.mem_cons_of_mem q (ih h1)

theorem dedupByUrl_nodup (l : List (String × String)) :
    ∀ seen : List String, ((dedupByUrl l seen).map Prod.snd).Nodup ∧
      ∀ u ∈ (dedupByUrl l seen).map Prod.snd, ¬ u ∈ seen := by
  induction l with
  | nil =>
    intro seen
    refine ⟨?_, ?_⟩
    · simp [dedupByUrl]
    · intro u hu
      simp [dedupByUrl] at hu
  | cons q rest ih =>
    intro seen
    unfold dedupByUrl
    by_cases hs : seen.contains q.2
    · rw [if_pos hs]
      exact ih seen
    · rw [if_neg hs]
      obtain ⟨hnd, hnotin⟩ := ih (q.2 :: seen)
      refine ⟨?_, ?_⟩
      · rw [List.map_cons, List.nodup_cons]
        refine ⟨?_, hnd⟩
        intro hmem
        exact hnotin q.2 hmem (List.mem_cons_self q.2 seen)
      · intro u hu
        rw [List.map_cons] at hu
        rcases List.mem_cons.mp hu with h1 | h1
        · subst h1
          intro hmem
          exact hs (List.elem_iff.mpr hmem)
        · intro hmem
          exact hnotin u h1 (List.mem_cons_of_mem q.2 hmem)

theorem isFacultyLink_spec {x : String} (h : isFacultyLink x = true) :
    (facultyPositives.any fun key => pyContains key (pyLower x)) = true ∧
    (facultyNegatives.any fun neg => pyContains neg (pyLower x)) = false := by
  unfold isFacultyLink at h
  by_cases hneg : (facultyNegatives.any fun neg => pyContains neg (pyLower x)) = true
  · rw [if_pos hneg] at h; cases h
  · rw [if_neg hneg] at h; exact ⟨h, by simpa using hneg⟩

theorem keepAnchorCore_some {a : Anchor} {href nm u : String}
    (h : keepAnchorCore a href = some (nm, u)) :
    u = stripFragment href ∧ isFacultyLink (urlPath href) = true ∧
    nm = a.text ∧ skipLabelTokens.contains (pyLower nm) = false ∧
    (["people", "faculty", "staff"].any
      (fun tok => pyContains tok (pyLower nm))) = false := by
  unfold keepAnchorCore at h
  by_cases h1 : ¬ pyStartsWith "http" (pyLower href) = true
  · rw [if_pos h1] at h; cases h
  · rw [if_neg h1] at h
    by_cases h2 : isFacultyLink (urlPath href) = true
    · rw [if_pos h2] at h
      by_cases h3 : skipLabelTokens.contains (pyLower a.text) = true
      · rw [if_pos h3] at h; cases h
      · rw [if_neg h3] at h
        by_cases h4 : (["people", "faculty", "staff"].any
            (fun tok => pyContains tok (pyLower a.text))) = true
        · rw [if_pos h4] at h; cases h
        · rw [if_neg h4] at h
          have h' := Option.some.inj h
          have hnm : nm = a.text := (congrArg Prod.fst h').symm
          subst hnm
          exact ⟨(congrArg Prod.snd h').symm, h2, rfl, by simpa using h3,
            by simpa using h4⟩
    · rw [if_neg h2] at h; cases h

theorem keepAnchor_some {urljoin : String → String → String} {baseUrl : String}
    {a : Anchor} {nm u : String}
    (h : keepAnchor urljoin baseUrl a = some (nm, u)) :
    ∃ href : String, u = stripFragment href ∧ isFacultyLink (urlPath href) = true ∧
      nm = a.text ∧ skipLabelTokens.contains (pyLower nm) = false ∧
      (["people", "faculty", "staff"].any
        (fun tok => pyContains tok (pyLower nm))) = false := by
  unfold keepAnchor at h
  by_cases h1 : (pyStrip a.href = "" || a.text = "") = true
  · rw [if_pos h1] at h; cases h
  · rw [if_neg h1] at h
    by_cases h2 : (pyStartsWith "#" (pyStrip a.href) ||
        pyStartsWith "javascript" (pyLower (pyStrip a.href))) = true
    · rw [if_pos h2] at h; cases h
    · rw [if_neg h2] at h
      exact ⟨_, keepAnchorCore_some h⟩

/-- C9: every (label, url) pair returned by `extract_detail_links` has
a URL whose parsed path passes `is_faculty_link` (it contains at least
one profile-like keyword and no noise token), carries no fragment, has
a label that is neither a generic navigation text nor contains
people/faculty/staff, and the returned URLs are pairwise distinct. -/
theorem C9_detail_links :
    ∀ (urljoin : String → String → String) (baseUrl : String) (anchors : List Anchor),
      (∀ p ∈ extractDetailLinks urljoin baseUrl anchors,
        isFacultyLink (urlPath p.2) = true ∧
        (facultyPositives.any fun key => pyContains key (pyLower (urlPath p.2))) = true ∧
        (facultyNegatives.any fun neg => pyContains neg (pyLower (urlPath p.2))) = false ∧
        (∀ c ∈ p.2.data, c ≠ '#') ∧
        skipLabelTokens.contains (pyLower p.1) = false ∧
        (["people", "faculty", "staff"].any
          (fun tok => pyContains tok (pyLower p.1))) = false) ∧
      ((extractDetailLinks urljoin baseUrl anchors).map Prod.snd).Nodup := by
  intro urljoin baseUrl anchors
  constructor
  · intro p hp
    have hmem : p ∈ anchors.filterMap (keepAnchor urljoin baseUrl) :=
      mem_of_dedupByUrl hp
    obtain ⟨a, _, hka⟩ := List.mem_filterMap.mp hmem
    obtain ⟨href, hu, hfac, hnm, hskip, hany⟩ :=
      keepAnchor_some (by rw [hka] : keepAnchor urljoin baseUrl a = some (p.1, p.2))
    have hpath : isFacultyLink (urlPath p.2) = true := by
      rw [hu, urlPath_stripFragment]; exact hfac
    obtain ⟨hpos, hneg⟩ := isFacultyLink_spec hpath
    refine ⟨hpath, hpos, hneg, ?_, hskip, hany⟩
    intro c hc
    rw [hu] at hc
    have := mem_takeWhile_prop (p := fun c => c ≠ '#') hc
    simpa using this
  · exact (dedupByUrl_nodup _ []).1

/-- C9 (witness): the single anchor
`href="https://u.edu/faculty/jane#top"`, label "Jane Doe" survives the
classifier and its fragment-stripped URL has a faculty-like path. -/
theorem C9_detail_links_witness :
    isFacultyLink (urlPath "https://u.edu/faculty/jane") = true :=
  ((C9_detail_links (fun _ h => h) ""
      [{ href := "https://u.edu/faculty/jane#top", text := "Jane Doe" }]).1
    ("Jane Doe", "https://u.edu/faculty/jane") (by decide)).1

/-- C7: the search adapters are total functions (the embedding has no
error outcome, mirroring each adapter's catch-all `except`): on a
transport exception, a failing status (429/403 and every other 4xx/5xx
through `raise_for_status`, plus the DuckDuckGo anomaly page and the
Google non-200 check) or a malformed JSON body they return the empty
list; every issued request carries the scraper's bounded timeout, and
`search_person` falls through all four backends and returns the empty
list when all of them fail. -/
theorem C7_search_adapters_resilient :
    ∀ (w : WebScraper) (env : ScrapeEnv) (q name field : String) (n : Nat),
      (env.cseNet = .exn → (searchGoogleApi w env q n).1 = []) ∧
      (∀ s b, env.cseNet = .ok (s, b) → 400 ≤ s → (searchGoogleApi w env q n).1 = []) ∧
      (∀ s, env.cseNet = .ok (s, CseBody.malformed) → (searchGoogleApi w env q n).1 = []) ∧
      (env.ddgNet = .exn → (searchDuckduckgo w env q n).1 = []) ∧
      (∀ s b, env.ddgNet = .ok (s, b) → (s ≠ 200 ∨ b.anomaly = true) →
        (searchDuckduckgo w env q n).1 = []) ∧
      (env.googleNet = .exn → (searchGoogleHtml w env q n).1 = []) ∧
      (∀ s bs, env.googleNet = .ok (s, bs) → s ≠ 200 →
        (searchGoogleHtml w env q n).1 = []) ∧
      (env.bingNet = .exn → (searchBing w env q n).1 = []) ∧
      (∀ s bs, env.bingNet = .ok (s, bs) → 400 ≤ s → (searchBing w env q n).1 = []) ∧
      (∀ r ∈ (searchGoogleApi w env q n).2, r.timeout = some w.timeout) ∧
      (∀ r ∈ (searchDuckduckgo w env q n).2, r.timeout = some w.timeout) ∧
      (∀ r ∈ (searchGoogleHtml w env q n).2, r.timeout = some w.timeout) ∧
      (∀ r ∈ (searchBing w env q n).2, r.timeout = some w.timeout) ∧
      (∀ r ∈ (searchPerson w env name field n).2, r.timeout = some w.timeout) ∧
      (env.cseNet = .exn → env.ddgNet = .exn → env.googleNet = .exn →
        env.bingNet = .exn → (searchPerson w env name field n).1 = []) := by
  intro w env q name field n
  have hcse_exn : ∀ m, env.cseNet = .exn → googleApiResults env m = [] := by
    intro m hx; unfold googleApiResults; rw [hx]
  have hddg_exn : ∀ m, env.ddgNet = .exn → ddgResults env m = [] := by
    intro m hx; unfold ddgResults; rw [hx]
  have hgoo_exn : ∀ m, env.googleNet = .exn → googleHtmlResults env m = [] := by
    intro m hx; unfold googleHtmlResults; rw [hx]
  have hbing_exn : ∀ m, env.bingNet = .exn → bingResults env m = [] := by
    intro m hx; unfold bingResults; rw [hx]
  refine ⟨?_, ?_, ?_, ?_, ?_, ?_, ?_, ?_, ?_, ?_, ?_, ?_, ?_, ?_, ?_⟩
  · intro hx
    unfold searchGoogleApi
    by_cases hc : env.cseKey ∧ env.cseCx
    · rw [if_neg (by simpa using hc)]
      simpa using hcse_exn n hx
    · rw [if_pos (by simpa using hc)]
  · intro s b hok hs
    unfold searchGoogleApi
    by_cases hc : env.cseKey ∧ env.cseCx
    · rw [if_neg (by simpa using hc)]
      show googleApiResults env n = []
      unfold googleApiResults
      rw [hok]
      simp only []
      rw [if_pos hs]
    · rw [if_pos (by simpa using hc)]
  · intro s hok
    unfold searchGoogleApi
    by_cases hc : env.cseKey ∧ env.cseCx
    · rw [if_neg (by simpa using hc)]
      show googleApiResults env n = []
      unfold googleApiResults
      rw [hok]
      simp only []
      by_cases hs : 400 ≤ s
      · rw [if_pos hs]
      · rw [if_neg hs]
    · rw [if_pos (by simpa using hc)]
  · intro hx
    show ddgResults env n = []
    exact hddg_exn n hx
  · intro s b hok hcond
    show ddgResults env n = []
    unfold ddgResults
    rw [hok]
    simp only []
    by_cases hs : 400 ≤ s
    · rw [if_pos hs]
    · rw [if_neg hs, if_pos hcond]
  · intro hx
    show googleHtmlResults env n = []
    exact hgoo_exn n hx
  · intro s bs hok hs
    show googleHtmlResults env n = []
    unfold googleHtmlResults
    rw [hok]
    simp only []
    by_cases h4 : 400 ≤ s
    · rw [if_pos h4]
    · rw [if_neg h4, if_pos hs]
  · intro hx
    show bingResults env n = []
    exact hbing_exn n hx
  · intro s bs hok hs
    show bingResults env n = []
    unfold bingResults
    rw [hok]
    simp only []
    rw [if_pos hs]
  · intro r hr
    unfold searchGoogleApi at hr
    by_cases hc : env.cseKey ∧ env.cseCx
    · rw [if_neg (by simpa using hc)] at hr
      have : r = { url := "https://www.googleapis.com/customsearch/v1?q=" ++ quotePlus q
                   timeout := some w.timeout } := by simpa using hr
      rw [this]
    · rw [if_pos (by simpa using hc)] at hr
      cases hr
  · intro r hr
    have : r = { url := "https://html.duckduckgo.com/html/?q=" ++ quotePlus q
                 timeout := some w.timeout } := by simpa [searchDuckduckgo] using hr
    rw [this]
  · intro r hr
    have : r = { url := "https://www.google.com/search?q=" ++ quotePlus q ++ "&hl=zh-CN"
                 timeout := some w.timeout } := by simpa [searchGoogleHtml] using hr
    rw [this]
  · intro r hr
    have : r = { url := "https://www.bing.com/search?q=" ++ quotePlus q ++
                   "&mkt=zh-CN&ensearch=0&FORM=HDRSC1"
                 timeout := some w.timeout } := by simpa [searchBing] using hr
    rw [this]
  · intro r hr
    unfold searchPerson at hr
    have hstep : ∀ (l : List IssuedReq),
        (∀ x ∈ l, IssuedReq.timeout x = some w.timeout) → r ∈ l →
        r.timeout = some w.timeout := fun l hl hm => hl r hm
    split at hr
    · refine hstep _ ?_ hr
      intro x hx
      unfold searchGoogleApi at hx
      by_cases hc : env.cseKey ∧ env.cseCx
      · rw [if_neg (by simpa using hc)] at hx
        simp at hx
        rw [hx]
      · rw [if_pos (by simpa using hc)] at hx
        cases hx
    · split at hr
      · refine hstep _ ?_ hr
        intro x hx
        rcases List.mem_append.mp hx with h1 | h1
        · unfold searchGoogleApi at h1
          by_cases hc : env.cseKey ∧ env.cseCx
          · rw [if_neg (by simpa using hc)] at h1
            simp at h1
            rw [h1]
          · rw [if_pos (by simpa using hc)] at h1
            cases h1
        · simp [searchBing] at h1
          rw [h1]
      · split at hr
        · refine hstep _ ?_ hr
          intro x hx
          rcases List.mem_append.mp hx with h1 | h1
          · rcases List.mem_append.mp h1 with h2 | h2
            · unfold searchGoogleApi at h2
              by_cases hc : env.cseKey ∧ env.cseCx
              · rw [if_neg (by simpa using hc)] at h2
                simp at h2
                rw [h2]
              · rw [if_pos (by simpa using hc)] at h2
                cases h2
            · simp [searchBing] at h2
              rw [h2]
          · simp [searchGoogleHtml] at h1
            rw [h1]
        · refine hstep _ ?_ hr
          intro x hx
          rcases List.mem_append.mp hx with h1 | h1
          · rcases List.mem_append.mp h1 with h2 | h2
            · rcases List.mem_append.mp h2 with h3 | h3
              · unfold searchGoogleApi at h3
                by_cases hc : env.cseKey ∧ env.cseCx
                · rw [if_neg (by simpa using hc)] at h3
                  simp at h3
                  rw [h3]
                · rw [if_pos (by simpa using hc)] at h3
                  cases h3
              · simp [searchBing] at h3
                rw [h3]
            · simp [searchGoogleHtml] at h2
              rw [h2]
          · simp [searchDuckduckgo] at h1
            rw [h1]
  · intro h1 h2 h3 h4
    unfold searchPerson
    rw [if_neg ?hcse]
    case hcse =>
      unfold searchGoogleApi
      by_cases hc : env.cseKey ∧ env.cseCx
      · rw [if_neg (by simpa using hc)]
        simp [hcse_exn n h1]
      · rw [if_pos (by simpa using hc)]
        simp
    rw [if_neg ?hbing]
    case hbing =>
      show ¬ ¬ (bingResults env n).isEmpty = true
      simp [hbing_exn n h4]
    rw [if_neg ?hgoo]
    case hgoo =>
      show ¬ ¬ (googleHtmlResults env n).isEmpty = true
      simp [hgoo_exn n h3]
    show ddgResults env n = []
    exact hddg_exn n h2

/-- C7 (witness): with a transport exception on every backend, the
combined `search_person` returns the empty list. -/
theorem C7_search_adapters_resilient_witness :
    (searchPerson { timeout := 15 }
      { cseKey := true, cseCx := true, cseNet := .exn, ddgNet := .exn
        googleNet := .exn, bingNet := .exn } "Jane Doe" "AI" 5).1 = [] :=
  (C7_search_adapters_resilient { timeout := 15 }
    { cseKey := true, cseCx := true, cseNet := .exn, ddgNet := .exn
      googleNet := .exn, bingNet := .exn } "Jane Doe AI" "Jane Doe" "AI"
    5).2.2.2.2.2.2.2.2.2.2.2.2.2.2 rfl rfl rfl rfl

theorem length_insertByScoreDesc (r : TargetRec) (l : List TargetRec) :
    (insertByScoreDesc r l).length = l.length + 1 := by
  induction l with
  | nil => rfl
  | cons x xs ih =>
    unfold insertByScoreDesc
    by_cases h : r.match_score ≤ x.match_score
    · rw [if_pos h]
      simp [ih]
    · rw [if_neg h]
      simp

theorem length_sortByScoreDesc (l : List TargetRec) :
    (sortByScoreDesc l).length = l.length := by
  induction l with
  | nil => rfl
  | cons x xs ih =>
    unfold sortByScoreDesc
    rw [length_insertByScoreDesc, ih]
    simp

theorem length_mergeScored (c : List TargetRec) (s : List ScoredItem) :
    (mergeScored c s).length = c.length := by
  induction c generalizing s with
  | nil => rfl
  | cons x xs ih =>
    cases s with
    | nil => rfl
    | cons t ts =>
      unfold mergeScored
      simp [ih]

theorem length_aiScoreAndAnalyze (o : PyOutcome (List ScoredItem)) (c : List TargetRec) :
    (aiScoreAndAnalyze o c).length = c.length := by
  cases o with
  | exn => rfl
  | ok scored =>
    unfold aiScoreAndAnalyze
    rw [length_sortByScoreDesc, length_mergeScored]

theorem take_ne_nil_of_pos {l : List TargetRec} {n : Nat} (hn : 1 ≤ n)
    (hl : l ≠ []) : l.take n ≠ [] := by
  cases l with
  | nil => exact absurd rfl hl
  | cons x xs =>
    cases n with
    | zero => omega
    | succ m => simp [List.take]

theorem ftrNormStage_some {lookup : String → String → String → Option String}
    {o : PyOutcome PyVal} {count : Nat} {r : List TargetRec} (h1 : 1 ≤ count)
    (h : ftrNormStage lookup o count = some r) : r ≠ [] ∧ r.length ≤ count := by
  cases o with
  | exn => cases h
  | ok items =>
    unfold ftrNormStage at h
    simp only [] at h
    by_cases he : (sortByScoreDesc (normalizeRecommendations lookup items)).isEmpty = true
    · rw [if_pos he] at h
      cases h
    · rw [if_neg he] at h
      have hr := Option.some.inj h
      subst hr
      have hne : sortByScoreDesc (normalizeRecommendations lookup items) ≠ [] := by
        simpa using he
      exact ⟨take_ne_nil_of_pos h1 hne, by
        rw [List.length_take]
        exact min_le_left _ _⟩

theorem ftrStage1_some {env : RecEnv} {field : String} {count : Nat}
    {r : List TargetRec} (h1 : 1 ≤ count)
    (h : ftrStage1 env field count = some r) : r ≠ [] ∧ r.length ≤ count := by
  unfold ftrStage1 at h
  by_cases hk : env.serpapiKey = true
  · rw [if_pos hk] at h
    by_cases h3 : 3 ≤ (searchLinkedinViaSerpapi env.serpapiKey env.serpapiNet field count).length
    · rw [if_pos h3] at h
      have hr := Option.some.inj h
      subst hr
      have hlen := length_aiScoreAndAnalyze env.aiScoring
        (searchLinkedinViaSerpapi env.serpapiKey env.serpapiNet field count)
      have hne : aiScoreAndAnalyze env.aiScoring
          (searchLinkedinViaSerpapi env.serpapiKey env.serpapiNet field count) ≠ [] := by
        intro hnil
        rw [hnil] at hlen
        simp at hlen
        omega
      exact ⟨take_ne_nil_of_pos h1 hne, by
        rw [List.length_take]
        exact min_le_left _ _⟩
    · rw [if_neg h3] at h
      cases h
  · rw [if_neg hk] at h
    cases h

theorem ftrStage2_some {env : RecEnv} {count : Nat} {r : List TargetRec} (h1 : 1 ≤ count)
    (h : ftrStage2 env count = some r) : r ≠ [] ∧ r.length ≤ count := by
  unfold ftrStage2 at h
  by_cases hf : env.useGeminiSearch = true
  · rw [if_pos hf] at h
    exact ftrNormStage_some h1 h
  · rw [if_neg hf] at h
    cases h

theorem ftrStage3_some {env : RecEnv} {count : Nat} {r : List TargetRec} (h1 : 1 ≤ count)
    (h : ftrStage3 env count = some r) : r ≠ [] ∧ r.length ≤ count := by
  unfold ftrStage3 at h
  by_cases hf : env.useOpenaiWebSearch = true ∧ env.useOpenaiRecs = true
  · rw [if_pos hf] at h
    exact ftrNormStage_some h1 h
  · rw [if_neg hf] at h
    cases h

theorem ftrStage4_some {env : RecEnv} {count : Nat} {r : List TargetRec} (h1 : 1 ≤ count)
    (h : ftrStage4 env count = some r) : r ≠ [] ∧ r.length ≤ count := by
  unfold ftrStage4 at h
  by_cases hf : env.useOpenaiRecs = true
  · rw [if_pos hf] at h
    match hg : env.openaiGather with
    | .exn =>
      rw [hg] at h
      cases h
    | .ok g =>
      rw [hg] at h
      exact ftrNormStage_some h1 h
  · rw [if_neg hf] at h
    cases h

theorem ftrStage5_some {env : RecEnv} {count : Nat} {r : List TargetRec} (h1 : 1 ≤ count)
    (h : ftrStage5 env count = some r) : r ≠ [] ∧ r.length ≤ count := by
  unfold ftrStage5 at h
  match hg : env.gemGather with
  | .exn =>
    rw [hg] at h
    cases h
  | .ok (webText, sources) =>
    rw [hg] at h
    simp only [] at h
    by_cases hc : webText ≠ "" ∨ sources ≠ []
    · rw [if_pos hc] at h
      exact ftrNormStage_some h1 h
    · rw [if_neg hc] at h
      cases h

theorem ftrFinal_ok {env : RecEnv} {field : String} {count : Nat} {l : List TargetRec}
    (h1 : 1 ≤ count) (h : ftrFinal env field count = .ok l) :
    l ≠ [] ∧ l.length ≤ count := by
  unfold ftrFinal at h
  match hfc : env.finalCall with
  | .exn =>
    rw [hfc] at h
    cases h
  | .ok FinalParse.decodeError =>
    rw [hfc] at h
    simp only [] at h
    have := Except.ok.inj h
    subst this
    exact ⟨by simp, by simpa using h1⟩
  | .ok FinalParse.topNotDict =>
    rw [hfc] at h
    cases h
  | .ok (FinalParse.recs items) =>
    rw [hfc] at h
    simp only [] at h
    by_cases he : (sortByScoreDesc (normalizeRecommendations env.lookup items)).isEmpty = true
    · rw [if_pos he] at h
      have := Except.ok.inj h
      subst this
      exact ⟨by simp, by simpa using h1⟩
    · rw [if_neg he] at h
      have := Except.ok.inj h
      subst this
      have hne : sortByScoreDesc (normalizeRecommendations env.lookup items) ≠ [] := by
        simpa using he
      exact ⟨take_ne_nil_of_pos h1 hne, by
        rw [List.length_take]
        exact min_le_left _ _⟩

theorem ftrFinal_error {env : RecEnv} {field : String} {count : Nat}
    (h : ftrFinal env field count = .error ()) :
    env.finalCall = .exn ∨ env.finalCall = .ok FinalParse.topNotDict := by
  unfold ftrFinal at h
  match hfc : env.finalCall with
  | .exn => exact Or.inl rfl
  | .ok FinalParse.decodeError =>
    rw [hfc] at h
    cases h
  | .ok FinalParse.topNotDict => exact Or.inr rfl
  | .ok (FinalParse.recs items) =>
    rw [hfc] at h
    simp only [] at h
    by_cases he : (sortByScoreDesc (normalizeRecommendations env.lookup items)).isEmpty = true
    · rw [if_pos he] at h
      cases h
    · rw [if_neg he] at h
      cases h

/-- C1 (counterexample): with SerpAPI and Gemini Search configured but
failing, the OpenAI strategies at their default-disabled flags, no web
context for the scrape fallback, and the final default Gemini call
raising, `find_target_recommendations` propagates the exception to the
caller instead of returning the placeholder — even though strategies
were configured, contradicting both the placeholder guarantee and the
only-zero-configured-strategies-is-fatal part of the claim. -/
theorem C1_counterexample :
    findTargetRecommendations c1CexEnv "Finance" 10 = Except.error () ∧
    c1CexEnv.serpapiKey = true ∧ c1CexEnv.useGeminiSearch = true := by
  refine ⟨rfl, rfl, rfl⟩

/-- C1 (amended): for `count ≥ 1`, every list the engine returns is
non-empty with at most `count` records; the call raises only when the
final default Gemini call itself raises or returns non-object JSON
(its `_call_gemini` sits outside the `try`, so even a configured
cascade can be fatal); and when every earlier strategy fails or is
unconfigured and the final content fails to decode, the result is
exactly one synthetic placeholder record. -/
theorem C1_cascade_amended :
    ∀ (env : RecEnv) (field : String) (count : Nat), 1 ≤ count →
      (∀ l, findTargetRecommendations env field count = .ok l →
        l ≠ [] ∧ l.length ≤ count) ∧
      (findTargetRecommendations env field count = .error () →
        env.finalCall = .exn ∨ env.finalCall = .ok FinalParse.topNotDict) ∧
      (ftrStage1 env field count = Option.none → ftrStage2 env count = Option.none →
        ftrStage3 env count = Option.none → ftrStage4 env count = Option.none →
        ftrStage5 env count = Option.none →
        env.finalCall = .ok FinalParse.decodeError →
        findTargetRecommendations env field count = .ok [syntheticFallbackRec field]) := by
  intro env field count h1
  refine ⟨?_, ?_, ?_⟩
  · intro l hl
    unfold findTargetRecommendations at hl
    match hs1 : ftrStage1 env field count with
    | some r =>
      rw [hs1] at hl
      simp only [] at hl
      exact (Except.ok.inj hl) ▸ ftrStage1_some h1 hs1
    | Option.none =>
      rw [hs1] at hl
      simp only [] at hl
      match hs2 : ftrStage2 env count with
      | some r =>
        rw [hs2] at hl
        simp only [] at hl
        exact (Except.ok.inj hl) ▸ ftrStage2_some h1 hs2
      | Option.none =>
        rw [hs2] at hl
        simp only [] at hl
        match hs3 : ftrStage3 env count with
        | some r =>
          rw [hs3] at hl
          simp only [] at hl
          exact (Except.ok.inj hl) ▸ ftrStage3_some h1 hs3
        | Option.none =>
          rw [hs3] at hl
          simp only [] at hl
          match hs4 : ftrStage4 env count with
          | some r =>
            rw [hs4] at hl
            simp only [] at hl
            exact (Except.ok.inj hl) ▸ ftrStage4_some h1 hs4
          | Option.none =>
            rw [hs4] at hl
            simp only [] at hl
            match hs5 : ftrStage5 env count with
            | some r =>
              rw [hs5] at hl
              simp only [] at hl
              exact (Except.ok.inj hl) ▸ ftrStage5_some h1 hs5
            | Option.none =>
              rw [hs5] at hl
              simp only [] at hl
              exact ftrFinal_ok h1 hl
  · intro herr
    unfold findTargetRecommendations at herr
    match hs1 : ftrStage1 env field count with
    | some r =>
      rw [hs1] at herr
      cases herr
    | Option.none =>
      rw [hs1] at herr
      simp only [] at herr
      match hs2 : ftrStage2 env count with
      | some r =>
        rw [hs2] at herr
        cases herr
      | Option.none =>
        rw [hs2] at herr
        simp only [] at herr
        match hs3 : ftrStage3 env count with
        | some r =>
          rw [hs3] at herr
          cases herr
        | Option.none =>
          rw [hs3] at herr
          simp only [] at herr
          match hs4 : ftrStage4 env count with
          | some r =>
            rw [hs4] at herr
            cases herr
          | Option.none =>
            rw [hs4] at herr
            simp only [] at herr
            match hs5 : ftrStage5 env count with
            | some r =>
              rw [hs5] at herr
              cases herr
            | Option.none =>
              rw [hs5] at herr
              simp only [] at herr
              exact ftrFinal_error herr
  · intro hn1 hn2 hn3 hn4 hn5 hfc
    unfold findTargetRecommendations
    rw [hn1]
    simp only []
    rw [hn2]
    simp only []
    rw [hn3]
    simp only []
    rw [hn4]
    simp only []
    rw [hn5]
    simp only []
    unfold ftrFinal
    rw [hfc]

/-- C1 (witness for the amended theorem): in the witness environment
every strategy fails and the final content is undecodable, so the
engine returns exactly the synthetic placeholder. -/
theorem C1_cascade_amended_witness :
    findTargetRecommendations c1WitEnv "Finance" 10 =
      .ok [syntheticFallbackRec "Finance"] :=
  (C1_cascade_amended c1WitEnv "Finance" 10 (by decide)).2.2 rfl rfl rfl rfl rfl rfl

end ColdEmail
